import Mathlib

/-!
# Optiforge VR driver: the network orientation bridge

A shallow embedding of `CoptiforgeDeviceDriver` from
`src/driver_optiforge/driver.cpp`: the members `Connect`, `Activate`,
`GetPose` and `TCPThread`, over the fields `running_`, `quat`, `sock_`,
`serverAddr` and `timeout`.

Conventions of the embedding.

* A `float` is its 32-bit IEEE-754 pattern (`F32`) and a `double` its 64-bit
  pattern (`F64`); `F32.value` and `F64.value` give what a pattern denotes. The
  assignment of a `float` to a `double` field is the conversion
  `floatToDouble`, which keeps the value and turns a signalling NaN into a
  quiet one.
* `float quat[4]` is kept as its 16 bytes of object representation, so that
  `memcpy(quat, buffer, BUFFER_SIZE)` is a copy of bytes and `quat[i]` is a
  little-endian load (the driver is a Windows/winsock driver; every Windows
  target is little-endian).
* Calls into the operating system are inputs: each call's outcome is supplied
  by the caller of the model (`ConnectEnv`, `RecvInput`), and every call made
  is recorded, in order, in a list of `Event`s returned next to the new state.
* The handoff between the receiver thread and the polling thread is a separate
  interleaving model (`Sys`): the two locked blocks are cut into their atomic
  actions and a schedule says which thread moves next.
* `timeout++` is applied only right after the guard `if (timeout > 10)` whose
  body resets `timeout` to zero, hence to a value of at most 10: signed
  overflow cannot occur and `timeout` is an unbounded `Int`.
-/

namespace Optiforge

/-! ## Data model -/

/-- One `char` of a buffer, as an unsigned octet. -/
abbrev Byte := Fin 256

/-- The source constant `const int BUFFER_SIZE = 16;`. -/
def BUFFER_SIZE : Nat := 16

/-- Sixteen bytes of memory: `char buffer[BUFFER_SIZE]`, and the object
representation of `float quat[4]`. -/
abbrev Mem16 := Fin 16 → Byte

/-- Builds a `Mem16` from a list of bytes (missing positions are zero); used to
write concrete buffers. -/
def Mem16.ofList (l : List Byte) : Mem16 := fun i => l.getD i.val 0

/-- A `float`: its 32-bit pattern. -/
abbrev F32 := Fin 4294967296

/-- A `double`: its 64-bit pattern. -/
abbrev F64 := Fin 18446744073709551616

/-- What a floating-point datum denotes: a finite number with its sign (so that
the two zeros stay apart), an infinity, or a NaN. -/
inductive FloatVal where
  | finite (negative : Bool) (magnitude : ℚ)
  | inf (negative : Bool)
  | nan
deriving DecidableEq

/-- The value of an IEEE-754 binary interchange datum with `p` fraction bits,
exponent bias `B` and all-ones exponent `maxE`, from its sign bit `s`, biased
exponent field `E` and fraction field `M`. -/
def ieeeValue (p B maxE s E M : Nat) : FloatVal :=
  if E = maxE then (if M = 0 then .inf (decide (s = 1)) else .nan)
  else if E = 0 then .finite (decide (s = 1)) ((M : ℚ) * 2 ^ ((1 : Int) - B - p))
  else .finite (decide (s = 1)) (((2 ^ p + M : Nat) : ℚ) * 2 ^ ((E : Int) - B - p))

/-- What a binary32 pattern denotes (1 sign bit, 8 exponent bits biased by 127,
23 fraction bits). -/
def F32.value (f : F32) : FloatVal :=
  ieeeValue 23 127 255 (f.val / 2147483648) (f.val / 8388608 % 256) (f.val % 8388608)

/-- What a binary64 pattern denotes (1 sign bit, 11 exponent bits biased by
1023, 52 fraction bits). -/
def F64.value (d : F64) : FloatVal :=
  ieeeValue 52 1023 2047 (d.val / 9223372036854775808) (d.val / 4503599627370496 % 2048)
    (d.val % 4503599627370496)

/-- Normalization of a subnormal binary32 significand for its conversion: the
significand `m` is doubled, and the exponent `E` lowered by one, until the
leading bit reaches position 23 (at most `fuel` times). -/
def normalizeSubnormal : Nat → Nat → Nat → Nat × Nat
  | 0, m, E => (m, E)
  | n + 1, m, E => if m < 8388608 then normalizeSubnormal n (2 * m) (E - 1) else (m, E)

/-- The exponent and fraction fields of the `double` that a `float` with
exponent field `e` and fraction field `m` converts to: an infinity stays one; a
NaN keeps its payload (moved up by 29 bits) and gets the quiet bit; a zero
stays zero; a subnormal is normalized; a normal number has its exponent
rebiased by `1023 - 127` and its fraction moved up by 29 bits. -/
def floatToDoubleFields (e m : Nat) : Nat × Nat :=
  if e = 255 then
    (2047, if m = 0 then 0 else if m < 4194304 then m * 536870912 + 2251799813685248
      else m * 536870912)
  else if e = 0 then
    (if m = 0 then (0, 0)
     else ((normalizeSubnormal 23 m 897).2,
            ((normalizeSubnormal 23 m 897).1 - 8388608) * 536870912))
  else (e + 896, m * 536870912)

/-- The binary64 pattern with sign bit `s`, exponent field `E`, fraction `M`. -/
def packDouble (s E M : Nat) : F64 :=
  ⟨(s * 9223372036854775808 + E * 4503599627370496 + M) % 18446744073709551616,
    Nat.mod_lt _ (by omega)⟩

/-- The implicit conversion of a `float` to a `double`, as in
`pose.qRotation.x = quat[0];`: the sign is kept and the other fields are those
of `floatToDoubleFields`. -/
def floatToDouble (f : F32) : F64 :=
  packDouble (f.val / 2147483648)
    (floatToDoubleFields (f.val / 8388608 % 256) (f.val % 8388608)).1
    (floatToDoubleFields (f.val / 8388608 % 256) (f.val % 8388608)).2

/-- The `memcpy(dst, src, n)` of the C library on 16-byte objects: the first
`n` bytes of `dst` are replaced by those of `src`. -/
def memcpy (dst src : Mem16) (n : Nat) : Mem16 :=
  fun i => if i.val < n then src i else dst i

/-- The lvalue-to-rvalue read `quat[i]` of a `float` stored at byte offset
`4 * i`: a little-endian load of four bytes. -/
def loadFloat (m : Mem16) (i : Fin 4) : F32 :=
  ⟨(m ⟨4 * i.val, by omega⟩).val
      + 256 * (m ⟨4 * i.val + 1, by omega⟩).val
      + 65536 * (m ⟨4 * i.val + 2, by omega⟩).val
      + 16777216 * (m ⟨4 * i.val + 3, by omega⟩).val, by omega⟩

/-- The initializer `float quat[4] = { 0.0, 0.0, 0.0, 1.0 };` as stored bytes:
three zero words and the word `0x3F800000` (bytes `00 00 80 3F`). -/
def quat_init : Mem16 :=
  fun i => if i.val = 14 then 128 else if i.val = 15 then 63 else 0

/-- The type `vr::HmdQuaternion_t`: four `double`s. -/
structure HmdQuaternion where
  w : F64
  x : F64
  y : F64
  z : F64
deriving DecidableEq

/-- Four `float`s in the order `x, y, z, w`: the `Quaternion` of the wire
format, and what `float quat[4]` holds. -/
structure Quaternion where
  x : F32
  y : F32
  z : F32
  w : F32
deriving DecidableEq

/-- The fields of `vr::DriverPose_t` that `GetPose` assigns from the driver
state or to a flag. (`vecPosition`, `result` and the members left at zero by
`pose = { 0 }` are constants of no concern here and are left out.) -/
structure DriverPose where
  qWorldFromDriverRotation : HmdQuaternion
  qDriverFromHeadRotation : HmdQuaternion
  qRotation : HmdQuaternion
  poseIsValid : Bool
  deviceIsConnected : Bool
  shouldApplyHeadModel : Bool
deriving DecidableEq

/-- The two values of `vr::EVRInitError` that `Activate` returns. -/
inductive EVRInitError where
  | VRInitError_None
  | VRInitError_Driver_Failed
deriving DecidableEq

/-- The messages passed to `DriverLog` by the modelled members. -/
inductive LogMsg where
  | activating
  | wsaStartupFailed
  | wsaStartupSuccessful
  | socketCreationFailed
  | socketCreated
  | bindFailed
  | listening
  | receiveFailed
  | unexpectedDataSize
deriving DecidableEq

/-- What the driver does that is visible outside its fields, in program order:
the winsock calls, the log lines, the entry into `Connect()`, and the start of
the receiver thread. -/
inductive Event where
  | DriverLog (m : LogMsg)
  | WSAStartup
  | WSACleanup
  | Connect
  | inet_pton
  | socket
  | connect (s : Nat)
  | closesocket (s : Option Nat)
  | recv
  | threadStart
deriving DecidableEq

/-- The fields of `CoptiforgeDeviceDriver` used by the network bridge. -/
structure Driver where
  /-- The field `bool running_`. -/
  running_ : Bool
  /-- The field `float quat[4]`, as its sixteen bytes. -/
  quat : Mem16
  /-- The field `SOCKET sock_`; `none` is `INVALID_SOCKET`. -/
  sock_ : Option Nat
  /-- The member `serverAddr.sin_addr`. (`sin_family` and `sin_port` are set from
  constants and never read by the model.) -/
  sin_addr : Nat
  /-- The field `int timeout`, the malformed-read counter. -/
  timeout : Int

/-- The outcomes of the three winsock calls made by one run of `Connect()`. -/
structure ConnectEnv where
  /-- The call `inet_pton(AF_INET, IP, &sin_addr)`: `some a` when the host string
  parses (returns 1 and stores `a`), `none` when it does not (returns 0 or -1
  and stores nothing). -/
  inet_pton : Option Nat
  /-- The call `socket(...)`: `none` is `INVALID_SOCKET`. -/
  socket : Option Nat
  /-- Whether `connect(...)` returns `SOCKET_ERROR`. -/
  connectError : Bool

/-- The result of `recv(sock_, buffer, BUFFER_SIZE, 0)`. -/
inductive RecvResult where
  /-- The value `SOCKET_ERROR`. -/
  | error
  /-- A byte count, between 0 (the peer has closed the connection) and the
  length `BUFFER_SIZE` asked for. -/
  | received (n : Fin 17)
deriving DecidableEq

/-- Everything one iteration of the receiver loop takes from outside. -/
structure RecvInput where
  /-- The return value of `recv`. -/
  received : RecvResult
  /-- The contents of `buffer` after the call. -/
  buffer : Mem16
  /-- The outcomes of the winsock calls of `Connect()`, should this iteration
  reconnect. -/
  env : ConnectEnv

/-- A return value together with the state left behind and the events issued. -/
structure Ret (α : Type) where
  val : α
  state : Driver
  events : List Event

/-! ## The members of `CoptiforgeDeviceDriver` -/

/-- The state of a constructed driver object: the default member initializers
`running_ = false`, `quat = {0,0,0,1}`, `timeout = 0`, and `serverAddr` zeroed
by the constructor. The field `sock_` has no initializer; its value is a
parameter. -/
def Driver.constructed (sock0 : Option Nat) : Driver :=
  { running_ := false, quat := quat_init, sock_ := sock0, sin_addr := 0, timeout := 0 }

/-- The member `bool Connect()`. -/
def Connect (d : Driver) (e : ConnectEnv) : Ret Bool :=
  -- timeout = 0; ... inet_pton(AF_INET, IP.c_str(), &serverAddr.sin_addr);
  let d1 : Driver := { d with timeout := 0, sin_addr := e.inet_pton.getD d.sin_addr }
  -- sock_ = socket(AF_INET, SOCK_STREAM, IPPROTO_TCP);
  let d2 : Driver := { d1 with sock_ := e.socket }
  match e.socket with
  | none =>
    -- if (sock_ == INVALID_SOCKET) { DriverLog; WSACleanup(); return false; }
    ⟨false, d2, [.Connect, .inet_pton, .socket,
      .DriverLog .socketCreationFailed, .WSACleanup]⟩
  | some s =>
    if e.connectError then
      -- if (connect(...) == SOCKET_ERROR) { DriverLog; closesocket; WSACleanup; return false; }
      ⟨false, d2, [.Connect, .inet_pton, .socket, .DriverLog .socketCreated,
        .connect s, .DriverLog .bindFailed, .closesocket (some s), .WSACleanup]⟩
    else
      ⟨true, d2, [.Connect, .inet_pton, .socket, .DriverLog .socketCreated,
        .connect s, .DriverLog .listening]⟩

/-- The member `DriverPose_t GetPose()`. -/
def GetPose (d : Driver) : DriverPose :=
  { -- pose = { 0 }; qWorldFromDriverRotation.w = 1.f; qDriverFromHeadRotation.w = 1.f;
    qWorldFromDriverRotation := { w := floatToDouble 1065353216, x := 0, y := 0, z := 0 }
    qDriverFromHeadRotation := { w := floatToDouble 1065353216, x := 0, y := 0, z := 0 }
    -- under quatMutex: qRotation.x = quat[0]; .y = quat[1]; .z = quat[2]; .w = quat[3];
    qRotation := { x := floatToDouble (loadFloat d.quat 0),
                   y := floatToDouble (loadFloat d.quat 1),
                   z := floatToDouble (loadFloat d.quat 2),
                   w := floatToDouble (loadFloat d.quat 3) }
    poseIsValid := true
    deviceIsConnected := true
    shouldApplyHeadModel := true }

/-- One pass through the body of `while (running_) { ... }` in `TCPThread()`. -/
def TCPThread_body (d : Driver) (i : RecvInput) : Driver × List Event :=
  match i.received with
  | .error =>
    -- if (received == SOCKET_ERROR) { DriverLog(...); continue; }
    (d, [.recv, .DriverLog .receiveFailed])
  | .received n =>
    if n.val = BUFFER_SIZE then
      -- lock_guard(quatMutex); memcpy(quat, buffer, BUFFER_SIZE);
      ({ d with quat := memcpy d.quat i.buffer BUFFER_SIZE }, [.recv])
    else
      -- if (timeout > 10) { closesocket(sock_); Connect(); }
      let r : Driver × List Event :=
        if d.timeout > 10 then
          let c := Connect d i.env
          (c.state, .closesocket d.sock_ :: c.events)
        else (d, [])
      -- timeout++; DriverLog("Unexpected data size");
      ({ r.1 with timeout := r.1.timeout + 1 },
        [.recv] ++ r.2 ++ [.DriverLog .unexpectedDataSize])

/-- The member `void TCPThread()`, run on the receive outcomes `inputs`: the
loop body is executed once per outcome for as long as `running_` holds. -/
def TCPThread : Driver → List RecvInput → Driver × List Event
  | d, [] => (d, [])
  | d, i :: rest =>
    if d.running_ then
      let r := TCPThread_body d i
      let r2 := TCPThread r.1 rest
      (r2.1, r.2 ++ r2.2)
    else (d, [])

/-- The network part of the member `EVRInitError Activate(...)`: `running_ = true`,
`WSAStartup` (whose result `wsaInit` is only logged), the initial `Connect()`,
and the start of the detached `TCPThread`. The property registration with the
host runtime in between touches none of the modelled fields. -/
def Activate (d : Driver) (wsaInit : Int) (e : ConnectEnv) : Ret EVRInitError :=
  let d1 : Driver := { d with running_ := true }
  let ev : List Event :=
    [.DriverLog .activating, .WSAStartup]
      ++ (if wsaInit ≠ 0 then [.DriverLog .wsaStartupFailed] else [])
      ++ [.DriverLog .wsaStartupSuccessful]
  let c := Connect d1 e
  if c.val = false then
    ⟨.VRInitError_Driver_Failed, c.state, ev ++ c.events⟩
  else
    ⟨.VRInitError_None, c.state, ev ++ c.events ++ [.threadStart]⟩

/-! ## Vocabulary of the specification -/

/-- A short read: a receive that is not an error and delivers fewer than
`BUFFER_SIZE` bytes. -/
def RecvInput.isShort (i : RecvInput) : Bool :=
  match i.received with
  | .error => false
  | .received n => decide (n.val < BUFFER_SIZE)

/-- A full read: a receive of exactly `BUFFER_SIZE` bytes. -/
def RecvInput.isFull (i : RecvInput) : Bool :=
  match i.received with
  | .error => false
  | .received n => decide (n.val = BUFFER_SIZE)

/-- A read error: a receive that returned `SOCKET_ERROR`. -/
def RecvInput.isError (i : RecvInput) : Bool :=
  match i.received with
  | .error => true
  | .received _ => false

/-- The number of reconnect attempts in a trace: the entries into `Connect()`. -/
def reconnectAttempts (ev : List Event) : Nat := ev.count .Connect

/-- A driver state right after a successful connect, with the receiver loop
about to run: `running_` set, malformed counter zero. -/
def Driver.fresh (d : Driver) : Prop := d.running_ = true ∧ d.timeout = 0

instance (d : Driver) : Decidable d.fresh := by
  unfold Driver.fresh; infer_instance

/-- A short read of `n` bytes with arbitrary buffer contents, for examples; a
reconnect in its iteration would succeed on socket 7. -/
def shortRead (n : Fin 17) : RecvInput :=
  { received := .received n, buffer := Mem16.ofList [],
    env := { inet_pton := some 2130706433, socket := some 7, connectError := false } }

/-- The state in which `Activate` leaves a constructed driver when the initial
connect succeeds on socket 3. -/
def activated : Driver :=
  (Activate (Driver.constructed none) 0
    { inet_pton := some 2130706433, socket := some 3, connectError := false }).state

/-- The four `float`s `quat[0]`, `quat[1]`, `quat[2]`, `quat[3]` held in the
sixteen bytes `m`, named `x, y, z, w` as `GetPose` reads them. -/
def quatOf (m : Mem16) : Quaternion :=
  { x := loadFloat m 0, y := loadFloat m 1, z := loadFloat m 2, w := loadFloat m 3 }

/-- The frame interpretation the receiver applies to a full read `b`: the
`float`s that `quat` holds after `memcpy(quat, buffer, BUFFER_SIZE)`. -/
def decodeFrame (b : Mem16) : Quaternion := quatOf (memcpy quat_init b BUFFER_SIZE)

/-- The rotation `GetPose` reports once `TCPThread` has copied the full read `b`
into `quat` (`memcpy(quat, buffer, BUFFER_SIZE)`, then `quat[0..3]` assigned to
the `double`s `x, y, z, w`). -/
def decode (b : Mem16) : HmdQuaternion :=
  (GetPose { Driver.constructed none with quat := memcpy quat_init b BUFFER_SIZE }).qRotation

/-- Modelled from the spec: the sender-side `encode(Quaternion) -> bytes[16]` of
the wire codec, which the driver does not contain. Following the frame layout
of the spec (four little-endian 32-bit floats in order `x, y, z, w`), byte
`4 * k + j` of the frame is byte `j` (least significant first) of the bit
pattern of component `k`. -/
def encode (q : Quaternion) : Mem16 := fun i =>
  let c : F32 :=
    if i.val / 4 = 0 then q.x else if i.val / 4 = 1 then q.y
    else if i.val / 4 = 2 then q.z else q.w
  ⟨(c.val / 256 ^ (i.val % 4)) % 256, Nat.mod_lt _ (by decide)⟩

/-- The little-endian 32-bit word made of four bytes, least significant first. -/
def leWord (b0 b1 b2 b3 : Byte) : F32 :=
  ⟨b0.val + 256 * b1.val + 65536 * b2.val + 16777216 * b3.val, by omega⟩

/-- The frame layout of the wire format: the four little-endian words
`b[0..3]`, `b[4..7]`, `b[8..11]`, `b[12..15]` as the bit patterns of
`x, y, z, w`. -/
def frameWords (b : Mem16) : Quaternion :=
  { x := leWord (b 0) (b 1) (b 2) (b 3), y := leWord (b 4) (b 5) (b 6) (b 7),
    z := leWord (b 8) (b 9) (b 10) (b 11), w := leWord (b 12) (b 13) (b 14) (b 15) }

/-- What the four components of a quaternion denote. -/
structure QuatVal where
  x : FloatVal
  y : FloatVal
  z : FloatVal
  w : FloatVal
deriving DecidableEq

/-- The values of four `float`s. -/
def Quaternion.values (q : Quaternion) : QuatVal :=
  { x := F32.value q.x, y := F32.value q.y, z := F32.value q.z, w := F32.value q.w }

/-- The values of four `double`s. -/
def HmdQuaternion.values (q : HmdQuaternion) : QuatVal :=
  { x := F64.value q.x, y := F64.value q.y, z := F64.value q.z, w := F64.value q.w }

/-- The four `double`s that four `float`s convert to. -/
def Quaternion.toDouble (q : Quaternion) : HmdQuaternion :=
  { x := floatToDouble q.x, y := floatToDouble q.y, z := floatToDouble q.z,
    w := floatToDouble q.w }

/-- The identity quaternion `(x, y, z, w) = (0, 0, 0, 1)` as `float`s: `1.0f`
has the bit pattern `0x3F800000`. -/
def identityQuat : Quaternion := { x := 0, y := 0, z := 0, w := 1065353216 }

/-- The identity quaternion as `double`s: `1.0` has the bit pattern
`0x3FF0000000000000`. -/
def identityRotation : HmdQuaternion :=
  { x := 0, y := 0, z := 0, w := 4607182418800017408 }

/-- The numbers `(0, 0, 0, 1)`, the zeros being positive. -/
def identityValues : QuatVal :=
  { x := .finite false 0, y := .finite false 0, z := .finite false 0, w := .finite false 1 }

/-- A frame whose `x` word `00 00 A0 7F` is a signalling NaN (`0x7FA00000`). -/
def signallingNaNFrame : Mem16 :=
  Mem16.ofList [0, 0, 160, 127, 0, 0, 0, 0, 0, 0, 0, 0, 0, 0, 128, 63]

/-- The counter that the number `n` of short reads of a session leads to: `n`
up to 11, then back to 1 at every eleventh further short read. -/
def counterAfterShorts (n : Nat) : Nat := if n = 0 then 0 else (n - 1) % 11 + 1

/-- The number of reconnects that `n` short reads of a session lead to: one at
the 12th, the 23rd, the 34th short read, and so on. -/
def reconnectsAfterShorts (n : Nat) : Nat := (n - 1) / 11

/-- The buffer of the most recent full read of a sequence of receive outcomes,
if there is one. -/
def lastFull (inputs : List RecvInput) : Option Mem16 :=
  (inputs.reverse.find? RecvInput.isFull).map (fun i => i.buffer)

/-- A full read delivering the frame `b`, for examples. -/
def fullRead (b : Mem16) : RecvInput :=
  { received := .received 16, buffer := b,
    env := { inet_pton := some 2130706433, socket := some 7, connectError := false } }

/-- A failed receive, for examples. -/
def errorRead : RecvInput :=
  { received := .error, buffer := Mem16.ofList [],
    env := { inet_pton := some 2130706433, socket := some 7, connectError := false } }

/-- The frame `00 00 00 00 00 00 00 00 00 00 00 00 00 00 80 3F`. -/
def identityFrame : Mem16 :=
  Mem16.ofList [0, 0, 0, 0, 0, 0, 0, 0, 0, 0, 0, 0, 0, 0, 128, 63]

/-- A frame of sixteen distinct bytes `01 02 ... 10`, for examples. -/
def countingFrame : Mem16 :=
  Mem16.ofList [1, 2, 3, 4, 5, 6, 7, 8, 9, 10, 11, 12, 13, 14, 15, 16]

/-- The reading of the malformed counter as a consecutive count: the number of
short reads among the receive outcomes that came after the most recent full
read. -/
def shortsSinceLastFull (inputs : List RecvInput) : Nat :=
  (inputs.reverse.takeWhile (fun i => !i.isFull)).countP RecvInput.isShort

/-- The length of the longest run of short reads with no full read in between
(read errors do not break a run). The accumulator is the pair of the current
run and the longest run so far. -/
def longestShortRun (inputs : List RecvInput) : Nat :=
  (inputs.foldl
    (fun (acc : Nat × Nat) i =>
      if i.isFull then (0, acc.2)
      else if i.isShort then (acc.1 + 1, max acc.2 (acc.1 + 1))
      else acc)
    (0, 0)).2

/-- The number of "Unexpected data size" reports, one per short read handled,
that a trace holds after its last entry into `Connect()`; all of them when the
trace has no such entry. -/
def shortsSinceConnect (ev : List Event) : Nat :=
  (ev.reverse.takeWhile (fun e => decide (e ≠ Event.Connect))).count
    (.DriverLog .unexpectedDataSize)

/-- The value `shortsSinceConnect` gives to a counter that stood at `t0` before
the trace `ev`: the reports since the last `Connect()` if there is one, and
otherwise `t0` plus all the reports. -/
def counterAfter (t0 : Int) (ev : List Event) : Int :=
  if Event.Connect ∈ ev then (shortsSinceConnect ev : Int)
  else t0 + (ev.count (.DriverLog .unexpectedDataSize) : Int)

/-- Six short reads, a full read, six short reads: twelve short reads in all,
never more than six in a row. -/
def interruptedShorts : List RecvInput :=
  List.replicate 6 (shortRead 8) ++ [fullRead countingFrame] ++ List.replicate 6 (shortRead 8)

/-- The activated driver with the malformed counter moved to `t`. -/
def activatedAt (t : Int) : Driver := { activated with timeout := t }

/-- A host string that does not parse, with a socket and a transport connect
that both succeed. -/
def unparsableHostEnv : ConnectEnv :=
  { inet_pton := none, socket := some 5, connectError := false }

/-! ## The two executors around `quatMutex`

The full-read branch of `TCPThread` and the locked block of `GetPose` run on
different threads. Each is cut into its atomic actions: taking the
`std::lock_guard`, the single byte copies of `memcpy`, the single `float` reads
`quat[i]`, and the release at the end of the scope. A schedule picks, step by
step, which thread moves; a thread whose next action is to take a mutex that
is held does not move. -/

/-- The two threads that touch `quat`. -/
inductive Thread where
  /-- The receiver thread, in `TCPThread`. -/
  | receiver
  /-- The thread of the runtime that calls `GetPose`. -/
  | poller
deriving DecidableEq

/-- Where the receiver stands in
`{ std::lock_guard<std::mutex> lock(quatMutex); memcpy(quat, buffer, BUFFER_SIZE); }`. -/
inductive WriterPc where
  /-- Before the `lock_guard` is constructed. -/
  | start
  /-- Holding the mutex, with the first `k` bytes copied. -/
  | copying (k : Nat)
  /-- Past the closing brace: mutex released. -/
  | finished
deriving DecidableEq

/-- Where the poller stands in the locked block of `GetPose`. -/
inductive ReaderPc where
  /-- Before the `lock_guard` is constructed. -/
  | start
  /-- Holding the mutex, about to run `pose.qRotation.x = quat[0];`. -/
  | readX
  /-- About to run `pose.qRotation.y = quat[1];`. -/
  | readY
  /-- About to run `pose.qRotation.z = quat[2];`. -/
  | readZ
  /-- About to run `pose.qRotation.w = quat[3];`. -/
  | readW
  /-- All four components read, about to leave the scope. -/
  | unlock
  /-- Past the closing brace: mutex released. -/
  | finished
deriving DecidableEq

/-- The shared memory and the two threads' private state. -/
structure Sys where
  /-- The shared field `float quat[4]`. -/
  quat : Mem16
  /-- The field `std::mutex quatMutex`: its holder, if any. -/
  quatMutex : Option Thread
  /-- The receiver's local `buffer`, holding a full frame. -/
  buffer : Mem16
  /-- The receiver's position. -/
  wpc : WriterPc
  /-- The poller's position. -/
  rpc : ReaderPc
  /-- The poller's local `pose.qRotation`. -/
  qRotation : HmdQuaternion

/-- Both threads about to enter their locked blocks: `quat` holds `old`, the
receiver has received `new`, and `pose = { 0 }` has zeroed the rotation. -/
def Sys.init (old new : Mem16) : Sys :=
  { quat := old, quatMutex := none, buffer := new, wpc := .start, rpc := .start,
    qRotation := { w := 0, x := 0, y := 0, z := 0 } }

/-- One atomic action of the receiver; the state is returned unchanged when the
receiver is blocked on the mutex or has finished. -/
def stepReceiver (s : Sys) : Sys :=
  match s.wpc with
  | .start =>
    match s.quatMutex with
    | none => { s with quatMutex := some .receiver, wpc := .copying 0 }
    | some _ => s
  | .copying k =>
    if k < BUFFER_SIZE then
      { s with quat := fun i => if i.val = k then s.buffer i else s.quat i,
               wpc := .copying (k + 1) }
    else { s with quatMutex := none, wpc := .finished }
  | .finished => s

/-- One atomic action of the poller; the state is returned unchanged when the
poller is blocked on the mutex or has finished. -/
def stepPoller (s : Sys) : Sys :=
  match s.rpc with
  | .start =>
    match s.quatMutex with
    | none => { s with quatMutex := some .poller, rpc := .readX }
    | some _ => s
  | .readX =>
    { s with qRotation := { s.qRotation with x := floatToDouble (loadFloat s.quat 0) },
             rpc := .readY }
  | .readY =>
    { s with qRotation := { s.qRotation with y := floatToDouble (loadFloat s.quat 1) },
             rpc := .readZ }
  | .readZ =>
    { s with qRotation := { s.qRotation with z := floatToDouble (loadFloat s.quat 2) },
             rpc := .readW }
  | .readW =>
    { s with qRotation := { s.qRotation with w := floatToDouble (loadFloat s.quat 3) },
             rpc := .unlock }
  | .unlock => { s with quatMutex := none, rpc := .finished }
  | .finished => s

/-- One step of the system: the scheduled thread makes its next move. -/
def Sys.step (s : Sys) (t : Thread) : Sys :=
  match t with
  | .receiver => stepReceiver s
  | .poller => stepPoller s

/-- The system after a whole schedule. -/
def Sys.run (s : Sys) (schedule : List Thread) : Sys := schedule.foldl Sys.step s

/-- What holds in every state the two threads can reach from `Sys.init old new`:
the receiver is inside its block exactly while it holds the mutex and `quat` is
then `old` with the first `k` bytes overwritten; the poller is inside its block
exactly while it holds the mutex, and what it has read so far comes from the
present `quat`; once finished it holds the decoding of `old` or of `new`. -/
def Sys.inv (old : Mem16) (s : Sys) : Prop :=
  (match s.wpc with
    | .start => s.quat = old ∧ s.quatMutex ≠ some .receiver
    | .copying k =>
      k ≤ BUFFER_SIZE ∧ s.quatMutex = some .receiver ∧ s.quat = memcpy old s.buffer k
    | .finished => s.quat = s.buffer ∧ s.quatMutex ≠ some .receiver)
  ∧ (match s.rpc with
    | .start => s.quatMutex ≠ some .poller
    | .readX => s.quatMutex = some .poller
    | .readY =>
      s.quatMutex = some .poller ∧ s.qRotation.x = floatToDouble (loadFloat s.quat 0)
    | .readZ =>
      s.quatMutex = some .poller ∧ s.qRotation.x = floatToDouble (loadFloat s.quat 0)
        ∧ s.qRotation.y = floatToDouble (loadFloat s.quat 1)
    | .readW =>
      s.quatMutex = some .poller ∧ s.qRotation.x = floatToDouble (loadFloat s.quat 0)
        ∧ s.qRotation.y = floatToDouble (loadFloat s.quat 1)
        ∧ s.qRotation.z = floatToDouble (loadFloat s.quat 2)
    | .unlock => s.quatMutex = some .poller ∧ s.qRotation = decode s.quat
    | .finished =>
      s.quatMutex ≠ some .poller
        ∧ (s.qRotation = decode old ∨ s.qRotation = decode s.buffer))

/-- A schedule in which the poller takes the mutex while the receiver is in the
middle of its copy and has to wait. -/
def contendedSchedule : List Thread :=
  [.receiver, .receiver, .receiver, .poller, .poller, .receiver, .poller]
    ++ List.replicate 16 .receiver ++ List.replicate 6 .poller

/-- A schedule in which the poller gets in first and the receiver has to wait. -/
def pollerFirstSchedule : List Thread :=
  [.poller, .poller, .receiver, .poller, .receiver, .poller, .poller, .receiver, .poller]
    ++ List.replicate 18 .receiver

/-! ## Basic facts about `Connect` and the loop body -/

theorem Connect_timeout (d : Driver) (e : ConnectEnv) : (Connect d e).state.timeout = 0 := by
  unfold Connect
  cases e.socket with
  | none => rfl
  | some s => cases e.connectError <;> rfl

theorem Connect_running (d : Driver) (e : ConnectEnv) :
    (Connect d e).state.running_ = d.running_ := by
  unfold Connect
  cases e.socket with
  | none => rfl
  | some s => cases e.connectError <;> rfl

theorem Connect_quat (d : Driver) (e : ConnectEnv) : (Connect d e).state.quat = d.quat := by
  unfold Connect
  cases e.socket with
  | none => rfl
  | some s => cases e.connectError <;> rfl

theorem Connect_attempts (d : Driver) (e : ConnectEnv) :
    reconnectAttempts (Connect d e).events = 1 := by
  unfold Connect
  cases e.socket with
  | none => rfl
  | some s => cases e.connectError <;> rfl

theorem reconnectAttempts_append (a b : List Event) :
    reconnectAttempts (a ++ b) = reconnectAttempts a + reconnectAttempts b := by
  unfold reconnectAttempts
  exact List.count_append _ _ _

theorem body_running (d : Driver) (i : RecvInput) :
    (TCPThread_body d i).1.running_ = d.running_ := by
  unfold TCPThread_body
  cases i.received with
  | error => rfl
  | received n =>
    by_cases h : n.val = BUFFER_SIZE
    · simp [h]
    · by_cases ht : d.timeout > 10
      · simp [h, ht, Connect_running]
      · simp [h, ht]

theorem TCPThread_cons (d : Driver) (i : RecvInput) (rest : List RecvInput)
    (hr : d.running_ = true) :
    TCPThread d (i :: rest)
      = ((TCPThread (TCPThread_body d i).1 rest).1,
          (TCPThread_body d i).2 ++ (TCPThread (TCPThread_body d i).1 rest).2) := by
  simp [TCPThread, hr]

theorem body_short_below (d : Driver) (i : RecvInput) (hs : i.isShort = true)
    (ht : d.timeout ≤ 10) :
    TCPThread_body d i
      = ({ d with timeout := d.timeout + 1 }, [.recv, .DriverLog .unexpectedDataSize]) := by
  unfold RecvInput.isShort at hs
  unfold TCPThread_body
  cases hr : i.received with
  | error => simp [hr] at hs
  | received n =>
    simp only [hr, decide_eq_true_eq] at hs
    have h : n.val ≠ BUFFER_SIZE := by omega
    have ht2 : ¬ d.timeout > 10 := by omega
    simp [h, ht2]

theorem body_short_above (d : Driver) (i : RecvInput) (hs : i.isShort = true)
    (ht : 10 < d.timeout) :
    TCPThread_body d i
      = ({ (Connect d i.env).state with timeout := 1 },
          [.recv, .closesocket d.sock_] ++ (Connect d i.env).events
            ++ [.DriverLog .unexpectedDataSize]) := by
  unfold RecvInput.isShort at hs
  unfold TCPThread_body
  cases hr : i.received with
  | error => simp [hr] at hs
  | received n =>
    simp only [hr, decide_eq_true_eq] at hs
    have h : n.val ≠ BUFFER_SIZE := by omega
    simp [h, ht, Connect_timeout]

/-! ## The reconnect threshold -/

/-- A run of short reads that keeps the counter at or below 11 counts every
read and never reconnects. -/
theorem shorts_below_threshold (inputs : List RecvInput) :
    ∀ d : Driver, d.running_ = true → (∀ i ∈ inputs, i.isShort = true) →
      d.timeout + inputs.length ≤ 11 →
      (TCPThread d inputs).1.timeout = d.timeout + inputs.length
        ∧ reconnectAttempts (TCPThread d inputs).2 = 0 := by
  induction inputs with
  | nil => intro d _ _ _; simp [TCPThread, reconnectAttempts]
  | cons i rest ih =>
    intro d hr hs hb
    have hi : i.isShort = true := hs i (List.mem_cons_self _ _)
    have hrest : ∀ j ∈ rest, j.isShort = true := fun j hj => hs j (List.mem_cons_of_mem _ hj)
    simp only [List.length_cons, Nat.cast_add, Nat.cast_one] at hb
    have ht : d.timeout ≤ 10 := by omega
    rw [TCPThread_cons d i rest hr, body_short_below d i hi ht]
    have h := ih { d with timeout := d.timeout + 1 } hr hrest (by simp only []; omega)
    simp only [] at h
    refine ⟨?_, ?_⟩
    · simp only [h.1, List.length_cons, Nat.cast_add, Nat.cast_one]; omega
    · rw [reconnectAttempts_append, h.2]; rfl

/-- A run of short reads that takes the counter to 12 reconnects exactly once. -/
theorem shorts_reach_threshold (inputs : List RecvInput) :
    ∀ d : Driver, d.running_ = true → (∀ i ∈ inputs, i.isShort = true) →
      d.timeout ≤ 11 → d.timeout + inputs.length = 12 →
      reconnectAttempts (TCPThread d inputs).2 = 1 := by
  induction inputs with
  | nil => intro d _ _ h11 h12; simp at h12; omega
  | cons i rest ih =>
    intro d hr hs h11 h12
    have hi : i.isShort = true := hs i (List.mem_cons_self _ _)
    have hrest : ∀ j ∈ rest, j.isShort = true := fun j hj => hs j (List.mem_cons_of_mem _ hj)
    simp only [List.length_cons, Nat.cast_add, Nat.cast_one] at h12
    rw [TCPThread_cons d i rest hr]
    by_cases ht : d.timeout ≤ 10
    · rw [body_short_below d i hi ht]
      have h := ih { d with timeout := d.timeout + 1 } hr hrest
        (by simp only []; omega) (by simp only []; omega)
      simp only [] at h
      rw [reconnectAttempts_append, h]; rfl
    · have hlen : rest = [] := by
        have : rest.length = 0 := by omega
        exact List.length_eq_zero.mp this
      subst hlen
      rw [body_short_above d i hi (by omega)]
      simp only [TCPThread, List.append_nil, reconnectAttempts_append, Connect_attempts]
      rfl

/-- C1 (as amended): from a freshly connected session, a run of at most 11
consecutive short reads issues no reconnect attempt, and a run of exactly 12
issues exactly one, made while the 12th is handled (none during the first 11). -/
theorem C1_threshold_trigger (d : Driver) (inputs : List RecvInput)
    (hfresh : d.fresh) (hshort : ∀ i ∈ inputs, i.isShort = true) :
    (inputs.length ≤ 11 → reconnectAttempts (TCPThread d inputs).2 = 0)
      ∧ (inputs.length = 12 →
          reconnectAttempts (TCPThread d inputs).2 = 1
            ∧ reconnectAttempts (TCPThread d (inputs.take 11)).2 = 0) := by
  obtain ⟨hr, ht⟩ := hfresh
  refine ⟨fun hlen => ?_, fun hlen => ⟨?_, ?_⟩⟩
  · exact (shorts_below_threshold inputs d hr hshort (by rw [ht]; omega)).2
  · exact shorts_reach_threshold inputs d hr hshort (by rw [ht]; omega) (by rw [ht, hlen]; rfl)
  · refine (shorts_below_threshold (inputs.take 11) d hr
      (fun i hi => hshort i (List.mem_of_mem_take hi)) ?_).2
    rw [ht, List.length_take]; omega

/-- C1, witness: twelve short reads of 8 bytes after activation. -/
theorem C1_threshold_trigger_witness :
    reconnectAttempts (TCPThread activated (List.replicate 12 (shortRead 8))).2 = 1
      ∧ reconnectAttempts
          (TCPThread activated ((List.replicate 12 (shortRead 8)).take 11)).2 = 0 :=
  (C1_threshold_trigger activated (List.replicate 12 (shortRead 8))
    (by decide) (by decide)).2 (by decide)

/-- C1 as stated fails: after activation, eleven consecutive short reads (all
the premises of the claim hold) issue no reconnect attempt instead of one. -/
theorem C1_counterexample :
    activated.fresh
      ∧ (∀ i ∈ List.replicate 11 (shortRead 8), i.isShort = true)
      ∧ (List.replicate 11 (shortRead 8)).length = 11
      ∧ reconnectAttempts (TCPThread activated (List.replicate 11 (shortRead 8))).2 = 0
      ∧ reconnectAttempts (TCPThread activated (List.replicate 11 (shortRead 8))).2 ≠ 1 := by
  decide

/-! ## The stored quaternion -/

theorem memcpy_full (dst src : Mem16) : memcpy dst src BUFFER_SIZE = src := by
  funext i
  have := i.isLt
  simp [memcpy, BUFFER_SIZE]

theorem body_quat (d : Driver) (i : RecvInput) :
    (TCPThread_body d i).1.quat = if i.isFull = true then i.buffer else d.quat := by
  unfold TCPThread_body RecvInput.isFull
  cases i.received with
  | error => simp
  | received n =>
    by_cases h : n.val = BUFFER_SIZE
    · simp [h, memcpy_full]
    · by_cases ht : d.timeout > 10
      · simp [h, ht, Connect_quat]
      · simp [h, ht]

theorem lastFull_cons (i : RecvInput) (rest : List RecvInput) :
    lastFull (i :: rest)
      = match lastFull rest with
        | some b => some b
        | none => if i.isFull = true then some i.buffer else none := by
  unfold lastFull
  rw [List.reverse_cons, List.find?_append]
  cases h : List.find? RecvInput.isFull rest.reverse with
  | some j => simp
  | none =>
    by_cases hf : i.isFull = true
    · simp [List.find?, hf]
    · simp [List.find?, hf]

/-- After any run of the receiver loop, `quat` holds the bytes of the most
recent full read, or what it held before when there was none. -/
theorem TCPThread_quat (inputs : List RecvInput) :
    ∀ d : Driver, d.running_ = true →
      (TCPThread d inputs).1.quat = (lastFull inputs).getD d.quat := by
  induction inputs with
  | nil => intro d _; simp [TCPThread, lastFull]
  | cons i rest ih =>
    intro d hr
    rw [TCPThread_cons d i rest hr]
    have h := ih (TCPThread_body d i).1 (by rw [body_running]; exact hr)
    simp only [h, lastFull_cons, body_quat]
    cases lastFull rest with
    | some b => simp
    | none =>
      by_cases hf : i.isFull = true
      · simp [hf]
      · simp [hf]

/-! ## The conversion from `float` to `double` keeps the value -/

theorem normalizeSubnormal_spec (n : Nat) :
    ∀ m E : Nat, 0 < m → m < 16777216 → 8388608 ≤ m * 2 ^ n → n ≤ E →
      8388608 ≤ (normalizeSubnormal n m E).1 ∧ (normalizeSubnormal n m E).1 < 16777216
        ∧ E - n ≤ (normalizeSubnormal n m E).2 ∧ (normalizeSubnormal n m E).2 ≤ E
        ∧ ((normalizeSubnormal n m E).1 : ℚ) * 2 ^ ((normalizeSubnormal n m E).2 : Int)
            = (m : ℚ) * 2 ^ (E : Int) := by
  induction n with
  | zero =>
    intro m E _ hlt hge _
    simp only [pow_zero, Nat.mul_one] at hge
    exact ⟨hge, hlt, by simp [normalizeSubnormal], le_refl _, rfl⟩
  | succ n ih =>
    intro m E hpos hlt hge hE
    by_cases hm : m < 8388608
    · have hge2 : 8388608 ≤ 2 * m * 2 ^ n := by
        rw [pow_succ] at hge
        calc 8388608 ≤ m * (2 ^ n * 2) := hge
          _ = 2 * m * 2 ^ n := by ring
      have h := ih (2 * m) (E - 1) (by omega) (by omega) hge2 (by omega)
      simp only [normalizeSubnormal, hm, if_true]
      refine ⟨h.1, h.2.1, by omega, by omega, ?_⟩
      rw [h.2.2.2.2]
      have hE1 : ((E - 1 : Nat) : Int) = (E : Int) - 1 := by omega
      rw [hE1, zpow_sub₀ (by norm_num : (2 : ℚ) ≠ 0)]
      push_cast
      field_simp
      ring
    · simp only [normalizeSubnormal, hm, if_false]
      exact ⟨by omega, hlt, by omega, le_refl _, trivial⟩

theorem F64_value_pack (s E M : Nat) (hs : s < 2) (hE : E < 2048)
    (hM : M < 4503599627370496) :
    F64.value (packDouble s E M) = ieeeValue 52 1023 2047 s E M := by
  unfold F64.value packDouble
  have h1 : (s * 9223372036854775808 + E * 4503599627370496 + M) % 18446744073709551616
      / 9223372036854775808 = s := by omega
  have h2 : (s * 9223372036854775808 + E * 4503599627370496 + M) % 18446744073709551616
      / 4503599627370496 % 2048 = E := by omega
  have h3 : (s * 9223372036854775808 + E * 4503599627370496 + M) % 18446744073709551616
      % 4503599627370496 = M := by omega
  simp only [h1, h2, h3]

theorem widen_fields_value (s e m : Nat) (hs : s < 2) (he : e < 256) (hm : m < 8388608) :
    F64.value (packDouble s (floatToDoubleFields e m).1 (floatToDoubleFields e m).2)
      = ieeeValue 23 127 255 s e m := by
  by_cases h255 : e = 255
  · subst h255
    by_cases hm0 : m = 0
    · subst hm0
      have hf : floatToDoubleFields 255 0 = (2047, 0) := rfl
      rw [hf, F64_value_pack _ _ _ hs (by omega) (by omega)]
      simp [ieeeValue]
    · by_cases hq : m < 4194304
      · have hf : floatToDoubleFields 255 m = (2047, m * 536870912 + 2251799813685248) := by
          simp [floatToDoubleFields, hm0, hq]
        rw [hf, F64_value_pack _ _ _ hs (by omega) (by simp only []; omega)]
        simp [ieeeValue, hm0]
      · have hf : floatToDoubleFields 255 m = (2047, m * 536870912) := by
          simp [floatToDoubleFields, hm0, hq]
        rw [hf, F64_value_pack _ _ _ hs (by omega) (by simp only []; omega)]
        simp [ieeeValue, hm0]
  · by_cases h0 : e = 0
    · subst h0
      by_cases hm0 : m = 0
      · subst hm0
        have hf : floatToDoubleFields 0 0 = (0, 0) := rfl
        rw [hf, F64_value_pack _ _ _ hs (by omega) (by omega)]
        simp [ieeeValue]
      · obtain ⟨hn1, hn2, hn3, hn4, hn5⟩ := normalizeSubnormal_spec 23 m 897 (by omega)
          (by omega) (by norm_num; omega) (by omega)
        have hf : floatToDoubleFields 0 m
            = ((normalizeSubnormal 23 m 897).2,
                ((normalizeSubnormal 23 m 897).1 - 8388608) * 536870912) := by
          simp [floatToDoubleFields, hm0]
        rw [hf, F64_value_pack _ _ _ hs (by simp only []; omega) (by simp only []; omega)]
        have hne : (normalizeSubnormal 23 m 897).2 ≠ 2047 := by omega
        have hne0 : (normalizeSubnormal 23 m 897).2 ≠ 0 := by omega
        have h0255 : (0 : Nat) ≠ 255 := by omega
        simp only [ieeeValue, hne, hne0, h0255, if_false, if_true]
        refine congrArg (FloatVal.finite (decide (s = 1))) ?_
        have hcast : ((2 ^ 52 + ((normalizeSubnormal 23 m 897).1 - 8388608) * 536870912 : Nat) : ℚ)
            = ((normalizeSubnormal 23 m 897).1 : ℚ) * 536870912 := by
          have : 2 ^ 52 + ((normalizeSubnormal 23 m 897).1 - 8388608) * 536870912
              = (normalizeSubnormal 23 m 897).1 * 536870912 := by omega
          rw [this]
          push_cast
          rfl
        rw [hcast]
        have hx : (((normalizeSubnormal 23 m 897).2 : Nat) : Int) - ((1023 : Nat) : Int)
              - ((52 : Nat) : Int)
            = ((normalizeSubnormal 23 m 897).2 : Int) + (-1075) := by push_cast; ring
        have hy : (1 : Int) - ((127 : Nat) : Int) - ((23 : Nat) : Int) = (897 : Int) + (-1046) := by
          norm_num
        rw [hx, hy, zpow_add₀ (by norm_num : (2 : ℚ) ≠ 0), zpow_add₀ (by norm_num : (2 : ℚ) ≠ 0)]
        have hn5b : ((normalizeSubnormal 23 m 897).1 : ℚ)
            * 2 ^ ((normalizeSubnormal 23 m 897).2 : Int) = (m : ℚ) * 2 ^ (897 : Int) := by
          exact_mod_cast hn5
        calc ((normalizeSubnormal 23 m 897).1 : ℚ) * 536870912
              * (2 ^ ((normalizeSubnormal 23 m 897).2 : Int) * 2 ^ (-1075 : Int))
            = (((normalizeSubnormal 23 m 897).1 : ℚ)
                * 2 ^ ((normalizeSubnormal 23 m 897).2 : Int))
                * (536870912 * 2 ^ (-1075 : Int)) := by ring
          _ = ((m : ℚ) * 2 ^ (897 : Int)) * (536870912 * 2 ^ (-1075 : Int)) := by rw [hn5b]
          _ = (m : ℚ) * (2 ^ (897 : Int) * 2 ^ (-1046 : Int)) := by
              have h29 : (536870912 : ℚ) * 2 ^ (-1075 : Int) = 2 ^ (-1046 : Int) := by
                rw [show (536870912 : ℚ) = 2 ^ (29 : Int) by norm_num,
                  ← zpow_add₀ (by norm_num : (2 : ℚ) ≠ 0)]
                norm_num
              rw [h29]
              ring
    · have hf : floatToDoubleFields e m = (e + 896, m * 536870912) := by
        simp [floatToDoubleFields, h255, h0]
      rw [hf, F64_value_pack _ _ _ hs (by simp only []; omega) (by simp only []; omega)]
      have hne : e + 896 ≠ 2047 := by omega
      have hne0 : e + 896 ≠ 0 := by omega
      simp only [ieeeValue, h255, h0, hne, hne0, if_false]
      refine congrArg (FloatVal.finite (decide (s = 1))) ?_
      have hx : ((e + 896 : Nat) : Int) - ((1023 : Nat) : Int) - ((52 : Nat) : Int)
          = ((e : Int) - ((127 : Nat) : Int) - ((23 : Nat) : Int)) + (-29) := by
        push_cast; ring
      rw [hx, zpow_add₀ (by norm_num : (2 : ℚ) ≠ 0)]
      have h29 : ((2 ^ 52 + m * 536870912 : Nat) : ℚ) * 2 ^ (-29 : Int)
          = ((2 ^ 23 + m : Nat) : ℚ) := by
        rw [show ((2 ^ 52 + m * 536870912 : Nat) : ℚ) = ((2 ^ 23 + m : Nat) : ℚ) * 2 ^ (29 : Int) by
          push_cast; norm_num; ring]
        rw [mul_assoc, ← zpow_add₀ (by norm_num : (2 : ℚ) ≠ 0)]
        norm_num
      calc ((2 ^ 52 + m * 536870912 : Nat) : ℚ)
            * (2 ^ ((e : Int) - ((127 : Nat) : Int) - ((23 : Nat) : Int)) * 2 ^ (-29 : Int))
          = (((2 ^ 52 + m * 536870912 : Nat) : ℚ) * 2 ^ (-29 : Int))
            * 2 ^ ((e : Int) - ((127 : Nat) : Int) - ((23 : Nat) : Int)) := by ring
        _ = ((2 ^ 23 + m : Nat) : ℚ)
            * 2 ^ ((e : Int) - ((127 : Nat) : Int) - ((23 : Nat) : Int)) := by rw [h29]

/-- The conversion keeps the value: the `double` denotes what the `float` does,
and a NaN stays a NaN. -/
theorem floatToDouble_value (f : F32) : F64.value (floatToDouble f) = F32.value f := by
  have hf := f.isLt
  exact widen_fields_value _ _ _ (by omega) (Nat.mod_lt _ (by omega)) (Nat.mod_lt _ (by omega))


theorem toDouble_values (q : Quaternion) : q.toDouble.values = q.values := by
  simp only [Quaternion.toDouble, HmdQuaternion.values, Quaternion.values, floatToDouble_value]

/-! ## The stored quaternion and the pose -/

theorem loadFloat_eq_leWord (m : Mem16) :
    loadFloat m 0 = leWord (m 0) (m 1) (m 2) (m 3)
      ∧ loadFloat m 1 = leWord (m 4) (m 5) (m 6) (m 7)
      ∧ loadFloat m 2 = leWord (m 8) (m 9) (m 10) (m 11)
      ∧ loadFloat m 3 = leWord (m 12) (m 13) (m 14) (m 15) :=
  ⟨rfl, rfl, rfl, rfl⟩

theorem quatOf_eq_frameWords (m : Mem16) : quatOf m = frameWords m := by
  obtain ⟨h0, h1, h2, h3⟩ := loadFloat_eq_leWord m
  simp only [quatOf, frameWords, h0, h1, h2, h3]

theorem GetPose_rotation (d : Driver) : (GetPose d).qRotation = (frameWords d.quat).toDouble := by
  obtain ⟨h0, h1, h2, h3⟩ := loadFloat_eq_leWord d.quat
  simp only [GetPose, Quaternion.toDouble, frameWords, h0, h1, h2, h3]

theorem decode_components (b : Mem16) :
    decode b = { x := floatToDouble (loadFloat b 0), y := floatToDouble (loadFloat b 1),
                 z := floatToDouble (loadFloat b 2), w := floatToDouble (loadFloat b 3) } := by
  simp only [decode, GetPose, memcpy_full]

theorem decode_eq_frameWords (b : Mem16) : decode b = (frameWords b).toDouble := by
  simp only [decode, GetPose_rotation, memcpy_full]

theorem full_read_quat (d : Driver) (b : Mem16) (env : ConnectEnv) :
    (TCPThread_body d { received := .received 16, buffer := b, env := env }).1.quat = b := by
  have h16 : ((16 : Fin 17).val = BUFFER_SIZE) = True := eq_true rfl
  simp only [TCPThread_body, h16, if_true, memcpy_full]

theorem identity_constants :
    (frameWords quat_init).toDouble = identityRotation
      ∧ identityRotation.values = identityValues := by
  have h1 : (frameWords quat_init).toDouble = identityRotation := by decide
  have h2 : frameWords quat_init = identityQuat := by decide
  have h3 : identityQuat.values = identityValues := by
    have hw : (1065353216 : F32).val = 1065353216 := rfl
    have hz : (0 : F32).val = 0 := rfl
    simp only [Quaternion.values, identityQuat, identityValues, F32.value, hw, hz]
    norm_num [ieeeValue]
  refine ⟨h1, ?_⟩
  rw [← h1, toDouble_values, h2, h3]

/-- C2: from the initial state (loop running, `quat` as initialized), after any
finite sequence of receive outcomes the rotation `GetPose` returns is the
identity `(0,0,0,1)` when the sequence has no full read, and otherwise its
`x, y, z, w` are the `double`s converted from the four little-endian words of
the most recent full read, with the values those four words denote: all four
components come from that one frame. -/
theorem C2_latest_value (d : Driver) (inputs : List RecvInput)
    (hrun : d.running_ = true) (hinit : d.quat = quat_init) :
    (GetPose (TCPThread d inputs).1).qRotation
        = (match lastFull inputs with
          | none => identityRotation
          | some b => (frameWords b).toDouble)
      ∧ (GetPose (TCPThread d inputs).1).qRotation.values
        = (match lastFull inputs with
          | none => identityValues
          | some b => (frameWords b).values) := by
  have h := TCPThread_quat inputs d hrun
  rw [GetPose_rotation, h]
  cases hl : lastFull inputs with
  | none =>
    simp only [Option.getD_none, hinit]
    exact ⟨identity_constants.1, by rw [identity_constants.1]; exact identity_constants.2⟩
  | some b =>
    simp only [Option.getD_some]
    exact ⟨trivial, toDouble_values _⟩

/-- C2, witness: after activation, a short read, a full read of the identity
frame, a full read of the counting frame, a read error and a short read, the
pose carries the words of the counting frame. -/
theorem C2_latest_value_witness :
    (GetPose (TCPThread activated
        [shortRead 8, fullRead identityFrame, fullRead countingFrame, errorRead,
          shortRead 3]).1).qRotation
      = (frameWords countingFrame).toDouble :=
  (C2_latest_value activated
    [shortRead 8, fullRead identityFrame, fullRead countingFrame, errorRead, shortRead 3]
    (by decide) (by decide)).1

/-! ## The wire codec -/

/-- C3: after a full read of the frame `b`, the four `float`s of `quat` have as
bit patterns the little-endian 32-bit words `b[0..3]`, `b[4..7]`, `b[8..11]`,
`b[12..15]`, and `GetPose` reports as `x, y, z, w` the `double`s converted from
them, which denote the same values as those four binary32 patterns (a NaN word
gives a NaN). The frame `00 .. 00 80 3F` gives the words
`(0, 0, 0, 0x3F800000)` and the pose `(0, 0, 0, 1)`. -/
theorem C3_decode_little_endian (d : Driver) (b : Mem16) (env : ConnectEnv) :
    (quatOf (TCPThread_body d
        { received := .received 16, buffer := b, env := env }).1.quat).x.val
        = (b 0).val + 256 * (b 1).val + 65536 * (b 2).val + 16777216 * (b 3).val
      ∧ (quatOf (TCPThread_body d
        { received := .received 16, buffer := b, env := env }).1.quat).y.val
        = (b 4).val + 256 * (b 5).val + 65536 * (b 6).val + 16777216 * (b 7).val
      ∧ (quatOf (TCPThread_body d
        { received := .received 16, buffer := b, env := env }).1.quat).z.val
        = (b 8).val + 256 * (b 9).val + 65536 * (b 10).val + 16777216 * (b 11).val
      ∧ (quatOf (TCPThread_body d
        { received := .received 16, buffer := b, env := env }).1.quat).w.val
        = (b 12).val + 256 * (b 13).val + 65536 * (b 14).val + 16777216 * (b 15).val
      ∧ F64.value (GetPose (TCPThread_body d
          { received := .received 16, buffer := b, env := env }).1).qRotation.x
        = F32.value (leWord (b 0) (b 1) (b 2) (b 3))
      ∧ F64.value (GetPose (TCPThread_body d
          { received := .received 16, buffer := b, env := env }).1).qRotation.y
        = F32.value (leWord (b 4) (b 5) (b 6) (b 7))
      ∧ F64.value (GetPose (TCPThread_body d
          { received := .received 16, buffer := b, env := env }).1).qRotation.z
        = F32.value (leWord (b 8) (b 9) (b 10) (b 11))
      ∧ F64.value (GetPose (TCPThread_body d
          { received := .received 16, buffer := b, env := env }).1).qRotation.w
        = F32.value (leWord (b 12) (b 13) (b 14) (b 15))
      ∧ (GetPose (TCPThread_body d
          { received := .received 16, buffer := b, env := env }).1).qRotation
        = (frameWords b).toDouble
      ∧ frameWords identityFrame = { x := 0, y := 0, z := 0, w := 1065353216 }
      ∧ (GetPose (TCPThread_body d
          { received := .received 16, buffer := identityFrame, env := env }).1).qRotation
        = { x := 0, y := 0, z := 0, w := 4607182418800017408 }
      ∧ (GetPose (TCPThread_body d
          { received := .received 16, buffer := identityFrame, env := env }).1).qRotation.values
        = { x := .finite false 0, y := .finite false 0, z := .finite false 0,
            w := .finite false 1 } := by
  have hid : (frameWords identityFrame).toDouble = identityRotation := by decide
  simp only [GetPose_rotation, full_read_quat, quatOf_eq_frameWords]
  refine ⟨rfl, rfl, rfl, rfl, ?_, ?_, ?_, ?_, trivial, by decide, hid, ?_⟩
  · exact floatToDouble_value _
  · exact floatToDouble_value _
  · exact floatToDouble_value _
  · exact floatToDouble_value _
  · rw [hid]
    exact identity_constants.2

theorem loadFloat_encode_val (q : Quaternion) (i : Fin 4) :
    (loadFloat (encode q) i).val
      = (if i.val = 0 then q.x else if i.val = 1 then q.y
          else if i.val = 2 then q.z else q.w).val := by
  have hx := q.x.isLt
  have hy := q.y.isLt
  have hz := q.z.isLt
  have hw := q.w.isLt
  fin_cases i <;> simp [loadFloat, encode] <;> omega

theorem quatOf_encode (q : Quaternion) : quatOf (encode q) = q := by
  cases q with
  | mk x y z w =>
    have h0 := loadFloat_encode_val ⟨x, y, z, w⟩ 0
    have h1 := loadFloat_encode_val ⟨x, y, z, w⟩ 1
    have h2 := loadFloat_encode_val ⟨x, y, z, w⟩ 2
    have h3 := loadFloat_encode_val ⟨x, y, z, w⟩ 3
    simp at h0 h1 h2 h3
    simp only [quatOf, Quaternion.mk.injEq]
    exact ⟨Fin.ext h0, Fin.ext h1, Fin.ext h2, Fin.ext h3⟩

/-- C4: the round trip of the wire codec. For every quaternion `q` of four
32-bit patterns, the receiver's interpretation of the frame `encode q` is `q`
bit for bit: `decodeFrame (encode q) = q`, and `quat` holds exactly `q` after
the full read of `encode q`. The pose then reports the four `double`s
converted from `q`, which denote the values of `q`. -/
theorem C4_round_trip (q : Quaternion) (d : Driver) (env : ConnectEnv) :
    decodeFrame (encode q) = q
      ∧ quatOf (TCPThread_body d
          { received := .received 16, buffer := encode q, env := env }).1.quat = q
      ∧ (GetPose (TCPThread_body d
          { received := .received 16, buffer := encode q, env := env }).1).qRotation
        = q.toDouble
      ∧ (GetPose (TCPThread_body d
          { received := .received 16, buffer := encode q, env := env }).1).qRotation.values
        = q.values := by
  have hq : frameWords (encode q) = q := by rw [← quatOf_eq_frameWords]; exact quatOf_encode q
  refine ⟨?_, ?_, ?_, ?_⟩
  · simp only [decodeFrame, memcpy_full]
    exact quatOf_encode q
  · rw [full_read_quat]
    exact quatOf_encode q
  · rw [GetPose_rotation, full_read_quat, hq]
  · rw [GetPose_rotation, full_read_quat, hq]
    exact toDouble_values q

/-- The spec-side `encode` is also a left inverse: every frame is the encoding
of its decoding, so `decodeFrame` is a bijection and `encode` is its inverse. -/
theorem encode_decodeFrame (b : Mem16) : encode (decodeFrame b) = b := by
  simp only [decodeFrame, memcpy_full, quatOf]
  funext i
  apply Fin.ext
  have hb : ∀ j : Fin 16, (b j).val < 256 := fun j => (b j).isLt
  have h0 := hb 0; have h1 := hb 1; have h2 := hb 2; have h3 := hb 3
  have h4 := hb 4; have h5 := hb 5; have h6 := hb 6; have h7 := hb 7
  have h8 := hb 8; have h9 := hb 9; have h10 := hb 10; have h11 := hb 11
  have h12 := hb 12; have h13 := hb 13; have h14 := hb 14; have h15 := hb 15
  have e0 : (loadFloat b 0).val
      = (b 0).val + 256 * (b 1).val + 65536 * (b 2).val + 16777216 * (b 3).val := rfl
  have e1 : (loadFloat b 1).val
      = (b 4).val + 256 * (b 5).val + 65536 * (b 6).val + 16777216 * (b 7).val := rfl
  have e2 : (loadFloat b 2).val
      = (b 8).val + 256 * (b 9).val + 65536 * (b 10).val + 16777216 * (b 11).val := rfl
  have e3 : (loadFloat b 3).val
      = (b 12).val + 256 * (b 13).val + 65536 * (b 14).val + 16777216 * (b 15).val := rfl
  fin_cases i <;> simp [encode, e0, e1, e2, e3] <;> omega

/-- A signalling NaN on the wire is stored as it is and handed out as a quiet
NaN: the frame with `x` word `0x7FA00000` leaves that pattern in `quat[0]`, and
the pose gets `0x7FFC000000000000`. -/
theorem signalling_nan_is_quieted :
    (quatOf (TCPThread_body activated (fullRead signallingNaNFrame)).1.quat).x = 2141192192
      ∧ (GetPose (TCPThread_body activated (fullRead signallingNaNFrame)).1).qRotation.x
          = 9222246136947933184
      ∧ F32.value 2141192192 = FloatVal.nan
      ∧ F64.value 9222246136947933184 = FloatVal.nan := by
  decide

/-! ## The pose handed to the runtime -/

/-- C5: in every driver state `GetPose` reports `poseIsValid = true` and
`deviceIsConnected = true`, and its rotation is the stored quaternion: the
`double`s converted from the four `float`s whose bytes `quat` holds, denoting
the same four values. So it does too after any run of the receiver loop,
whatever errors, short reads and failed reconnects the run contained and
whatever the counter. -/
theorem C5_pose_always_valid (d : Driver) (inputs : List RecvInput) :
    (GetPose d).poseIsValid = true
      ∧ (GetPose d).deviceIsConnected = true
      ∧ (GetPose d).qRotation = (frameWords d.quat).toDouble
      ∧ F64.value (GetPose d).qRotation.x
          = F32.value (leWord (d.quat 0) (d.quat 1) (d.quat 2) (d.quat 3))
      ∧ F64.value (GetPose d).qRotation.y
          = F32.value (leWord (d.quat 4) (d.quat 5) (d.quat 6) (d.quat 7))
      ∧ F64.value (GetPose d).qRotation.z
          = F32.value (leWord (d.quat 8) (d.quat 9) (d.quat 10) (d.quat 11))
      ∧ F64.value (GetPose d).qRotation.w
          = F32.value (leWord (d.quat 12) (d.quat 13) (d.quat 14) (d.quat 15))
      ∧ (GetPose d).qRotation = decode d.quat
      ∧ (GetPose (TCPThread d inputs).1).poseIsValid = true
      ∧ (GetPose (TCPThread d inputs).1).deviceIsConnected = true
      ∧ (GetPose (TCPThread d inputs).1).qRotation
          = (frameWords (TCPThread d inputs).1.quat).toDouble
      ∧ (GetPose (TCPThread d inputs).1).qRotation.values
          = (frameWords (TCPThread d inputs).1.quat).values := by
  refine ⟨rfl, rfl, GetPose_rotation d, ?_, ?_, ?_, ?_, ?_, rfl, rfl, GetPose_rotation _, ?_⟩
  · rw [GetPose_rotation]; exact floatToDouble_value _
  · rw [GetPose_rotation]; exact floatToDouble_value _
  · rw [GetPose_rotation]; exact floatToDouble_value _
  · rw [GetPose_rotation]; exact floatToDouble_value _
  · rw [decode_eq_frameWords]; exact GetPose_rotation d
  · rw [GetPose_rotation]; exact toDouble_values _

/-! ## Single iterations of the receiver loop -/

/-- C6: with the counter at most 10, the iteration that handles a receive of
8 bytes is one short read: the counter goes up by exactly one, nothing else in
the state changes (`quat` and the reported rotation stay as they were), no
`memcpy` into `quat` and no reconnect take place, and "Unexpected data size" is
logged once. -/
theorem C6_half_frame_is_one_short_read (d : Driver) (b : Mem16) (env : ConnectEnv)
    (hcount : d.timeout ≤ 10) :
    (({ received := .received 8, buffer := b, env := env } : RecvInput).isShort = true)
      ∧ (TCPThread_body d { received := .received 8, buffer := b, env := env }).1
          = { d with timeout := d.timeout + 1 }
      ∧ (TCPThread_body d { received := .received 8, buffer := b, env := env }).1.timeout
          = d.timeout + 1
      ∧ (TCPThread_body d { received := .received 8, buffer := b, env := env }).1.quat
          = d.quat
      ∧ (GetPose
          (TCPThread_body d { received := .received 8, buffer := b, env := env }).1).qRotation
          = (GetPose d).qRotation
      ∧ (TCPThread_body d { received := .received 8, buffer := b, env := env }).2
          = [.recv, .DriverLog .unexpectedDataSize] := by
  have hs : ({ received := .received 8, buffer := b, env := env } : RecvInput).isShort = true :=
    rfl
  have h := body_short_below d { received := .received 8, buffer := b, env := env } hs hcount
  rw [h]
  exact ⟨hs, rfl, rfl, rfl, rfl, rfl⟩

/-- C6, witness: the first receive after activation delivers 8 bytes. -/
theorem C6_half_frame_is_one_short_read_witness :
    (TCPThread_body activated (shortRead 8)).1.timeout = activated.timeout + 1
      ∧ (TCPThread_body activated (shortRead 8)).1.quat = activated.quat :=
  ⟨(C6_half_frame_is_one_short_read activated (Mem16.ofList [])
      { inet_pton := some 2130706433, socket := some 7, connectError := false }
      (by decide)).2.2.1,
   (C6_half_frame_is_one_short_read activated (Mem16.ofList [])
      { inet_pton := some 2130706433, socket := some 7, connectError := false }
      (by decide)).2.2.2.1⟩

/-- C7: an iteration whose receive returns an error changes nothing in the
driver state (counter, `quat`, `running_`, `sock_` all as before), issues only
the `recv` and the log line (no `closesocket`, no `Connect`), and the running
loop goes on with the next receive from the same state. -/
theorem C7_read_error_is_transient (d : Driver) (b : Mem16) (env : ConnectEnv)
    (rest : List RecvInput) (hrun : d.running_ = true) :
    (TCPThread_body d { received := .error, buffer := b, env := env }).1 = d
      ∧ (TCPThread_body d { received := .error, buffer := b, env := env }).2
          = [.recv, .DriverLog .receiveFailed]
      ∧ reconnectAttempts
          (TCPThread_body d { received := .error, buffer := b, env := env }).2 = 0
      ∧ TCPThread d ({ received := .error, buffer := b, env := env } :: rest)
          = ((TCPThread d rest).1,
              [.recv, .DriverLog .receiveFailed] ++ (TCPThread d rest).2) := by
  refine ⟨rfl, rfl, rfl, ?_⟩
  rw [TCPThread_cons d _ rest hrun]
  rfl

/-- C7, witness: a read error right after activation, followed by a full read. -/
theorem C7_read_error_is_transient_witness :
    (TCPThread_body activated errorRead).1 = activated
      ∧ TCPThread activated [errorRead, fullRead countingFrame]
          = ((TCPThread activated [fullRead countingFrame]).1,
              [.recv, .DriverLog .receiveFailed]
                ++ (TCPThread activated [fullRead countingFrame]).2) :=
  ⟨(C7_read_error_is_transient activated (Mem16.ofList [])
      { inet_pton := some 2130706433, socket := some 7, connectError := false }
      [fullRead countingFrame] (by decide)).1,
   (C7_read_error_is_transient activated (Mem16.ofList [])
      { inet_pton := some 2130706433, socket := some 7, connectError := false }
      [fullRead countingFrame] (by decide)).2.2.2⟩

/-! ## The malformed counter -/

theorem isShort_iff_not_full (n : Fin 17) : n.val < BUFFER_SIZE ↔ n.val ≠ BUFFER_SIZE := by
  have := n.isLt
  unfold BUFFER_SIZE
  omega

theorem body_not_short (d : Driver) (i : RecvInput) (hs : i.isShort = false) :
    (TCPThread_body d i).1.timeout = d.timeout
      ∧ reconnectAttempts (TCPThread_body d i).2 = 0
      ∧ (TCPThread_body d i).2.count (.DriverLog .unexpectedDataSize) = 0 := by
  unfold RecvInput.isShort at hs
  unfold TCPThread_body
  cases hr : i.received with
  | error => exact ⟨rfl, rfl, rfl⟩
  | received n =>
    simp only [hr, decide_eq_false_iff_not] at hs
    have h : n.val = BUFFER_SIZE := by
      by_contra hne
      exact hs ((isShort_iff_not_full n).mpr hne)
    simp [h, reconnectAttempts]

theorem body_attempts (d : Driver) (i : RecvInput) :
    reconnectAttempts (TCPThread_body d i).2
      = if i.isShort = true ∧ 10 < d.timeout then 1 else 0 := by
  cases hs : i.isShort with
  | false => simp [(body_not_short d i hs).2.1]
  | true =>
    by_cases ht : 10 < d.timeout
    · rw [body_short_above d i hs ht]
      simp only [reconnectAttempts_append, Connect_attempts, ht, and_self, if_true]
      rfl
    · rw [body_short_below d i hs (by omega)]
      simp only [ht, and_false, if_false]
      rfl

theorem body_timeout (d : Driver) (i : RecvInput) :
    (TCPThread_body d i).1.timeout
      = if i.isShort = true then (if 10 < d.timeout then 1 else d.timeout + 1)
        else d.timeout := by
  cases hs : i.isShort with
  | false => simp [(body_not_short d i hs).1]
  | true =>
    by_cases ht : 10 < d.timeout
    · rw [body_short_above d i hs ht]; simp [ht]
    · rw [body_short_below d i hs (by omega)]; simp [ht]

theorem TCPThread_stopped (d : Driver) (inputs : List RecvInput) (hr : d.running_ = false) :
    TCPThread d inputs = (d, []) := by
  cases inputs with
  | nil => rfl
  | cons i rest => simp [TCPThread, hr]

theorem run_monotone (inputs : List RecvInput) :
    ∀ d : Driver, reconnectAttempts (TCPThread d inputs).2 = 0 →
      d.timeout ≤ (TCPThread d inputs).1.timeout := by
  induction inputs with
  | nil => intro d _; simp [TCPThread]
  | cons i rest ih =>
    intro d h
    cases hr : d.running_ with
    | false => rw [TCPThread_stopped d _ hr]
    | true =>
      rw [TCPThread_cons d i rest hr] at h ⊢
      rw [reconnectAttempts_append] at h
      have h1 : reconnectAttempts (TCPThread_body d i).2 = 0 := by omega
      have h2 : reconnectAttempts (TCPThread (TCPThread_body d i).1 rest).2 = 0 := by omega
      have hstep : d.timeout ≤ (TCPThread_body d i).1.timeout := by
        rw [body_attempts] at h1
        rw [body_timeout]
        by_cases hs : i.isShort = true
        · by_cases ht : 10 < d.timeout
          · simp [hs, ht] at h1
          · simp [hs, ht]
        · simp [hs]
      exact le_trans hstep (ih _ h2)

/-- C8: an iteration of the receiver loop (full read, short read or read error)
that performs no reconnect attempt leaves the counter greater than or equal to
what it was; an iteration after which the counter is smaller performed exactly
one reconnect attempt (and leaves the counter at 1); and over any run of the
loop without a reconnect attempt the counter does not decrease. -/
theorem C8_counter_monotone (d : Driver) (i : RecvInput) (inputs : List RecvInput) :
    (reconnectAttempts (TCPThread_body d i).2 = 0 →
        d.timeout ≤ (TCPThread_body d i).1.timeout)
      ∧ ((TCPThread_body d i).1.timeout < d.timeout →
          reconnectAttempts (TCPThread_body d i).2 = 1
            ∧ (TCPThread_body d i).1.timeout = 1)
      ∧ (reconnectAttempts (TCPThread d inputs).2 = 0 →
          d.timeout ≤ (TCPThread d inputs).1.timeout) := by
  refine ⟨fun h => ?_, fun h => ?_, run_monotone inputs d⟩
  · rw [body_attempts] at h
    rw [body_timeout]
    by_cases hs : i.isShort = true
    · by_cases ht : 10 < d.timeout
      · simp [hs, ht] at h
      · simp [hs, ht]
    · simp [hs]
  · rw [body_timeout] at h
    rw [body_attempts, body_timeout]
    by_cases hs : i.isShort = true
    · by_cases ht : 10 < d.timeout
      · simp [hs, ht]
      · simp [hs, ht] at h
    · simp [hs] at h

/-- C8, witness: a short read at counter 0 (no reconnect, counter not smaller),
a short read at counter 11 (counter smaller, one reconnect), and a mixed run. -/
theorem C8_counter_monotone_witness :
    activated.timeout ≤ (TCPThread_body activated (shortRead 8)).1.timeout
      ∧ reconnectAttempts (TCPThread_body (activatedAt 11) (shortRead 8)).2 = 1
      ∧ activated.timeout
          ≤ (TCPThread activated [shortRead 8, errorRead, fullRead countingFrame]).1.timeout :=
  ⟨(C8_counter_monotone activated (shortRead 8) []).1 (by decide),
   ((C8_counter_monotone (activatedAt 11) (shortRead 8) []).2.1 (by decide)).1,
   (C8_counter_monotone activated (shortRead 8)
      [shortRead 8, errorRead, fullRead countingFrame]).2.2 (by decide)⟩

theorem takeWhile_append_of_all {α : Type} (p : α → Bool) (l1 l2 : List α)
    (h : ∀ x ∈ l1, p x = true) :
    (l1 ++ l2).takeWhile p = l1 ++ l2.takeWhile p := by
  induction l1 with
  | nil => rfl
  | cons a l ih =>
    have ha : p a = true := h a (List.mem_cons_self _ _)
    simp only [List.cons_append, List.takeWhile_cons, ha, if_true]
    rw [ih (fun x hx => h x (List.mem_cons_of_mem _ hx))]

theorem takeWhile_append_of_exists {α : Type} (p : α → Bool) (l1 l2 : List α)
    (h : ∃ x ∈ l1, p x = false) :
    (l1 ++ l2).takeWhile p = l1.takeWhile p := by
  induction l1 with
  | nil => obtain ⟨x, hx, _⟩ := h; cases hx
  | cons a l ih =>
    cases ha : p a with
    | false => simp [List.takeWhile_cons, ha]
    | true =>
      simp only [List.cons_append, List.takeWhile_cons, ha, if_true]
      obtain ⟨x, hx, hpx⟩ := h
      rcases List.mem_cons.mp hx with rfl | hmem
      · rw [ha] at hpx; cases hpx
      · rw [ih ⟨x, hmem, hpx⟩]

theorem shortsSinceConnect_append (a b : List Event) :
    shortsSinceConnect (a ++ b)
      = if Event.Connect ∈ b then shortsSinceConnect b
        else shortsSinceConnect a + b.count (.DriverLog .unexpectedDataSize) := by
  unfold shortsSinceConnect
  rw [List.reverse_append]
  by_cases h : Event.Connect ∈ b
  · rw [if_pos h, takeWhile_append_of_exists]
    exact ⟨Event.Connect, List.mem_reverse.mpr h, by simp⟩
  · rw [if_neg h, takeWhile_append_of_all, List.count_append, List.count_reverse, Nat.add_comm]
    intro x hx
    have hne : x ≠ Event.Connect := by
      rintro rfl
      exact h (List.mem_reverse.mp hx)
    simp [hne]

theorem shortsSinceConnect_of_not_mem (ev : List Event) (h : Event.Connect ∉ ev) :
    shortsSinceConnect ev = ev.count (.DriverLog .unexpectedDataSize) := by
  have h2 := shortsSinceConnect_append [] ev
  rw [if_neg h] at h2
  simpa [shortsSinceConnect] using h2

theorem counterAfter_append (t0 : Int) (a b : List Event) :
    counterAfter t0 (a ++ b) = counterAfter (counterAfter t0 a) b := by
  unfold counterAfter
  by_cases hb : Event.Connect ∈ b
  · simp [hb, shortsSinceConnect_append]
  · by_cases ha : Event.Connect ∈ a
    · simp [ha, hb, shortsSinceConnect_append]
    · simp [ha, hb, List.count_append]
      omega

theorem Connect_shorts (d : Driver) (e : ConnectEnv) (s : Option Nat) :
    counterAfter d.timeout
        ([.recv, .closesocket s] ++ (Connect d e).events ++ [.DriverLog .unexpectedDataSize])
      = 1 := by
  unfold Connect
  cases e.socket with
  | none => simp [counterAfter, shortsSinceConnect]
  | some s => cases e.connectError <;> simp [counterAfter, shortsSinceConnect]

theorem body_counterAfter (d : Driver) (i : RecvInput) :
    (TCPThread_body d i).1.timeout = counterAfter d.timeout (TCPThread_body d i).2 := by
  cases hs : i.isShort with
  | false =>
    have h := body_not_short d i hs
    have hno : Event.Connect ∉ (TCPThread_body d i).2 := by
      intro hmem
      have := List.count_pos_iff.mpr hmem
      have h0 := h.2.1
      unfold reconnectAttempts at h0
      omega
    unfold counterAfter
    rw [if_neg hno, h.1, h.2.2]
    simp
  | true =>
    by_cases ht : 10 < d.timeout
    · rw [body_short_above d i hs ht, Connect_shorts]
    · rw [body_short_below d i hs (by omega)]
      simp [counterAfter]

theorem run_counterAfter (inputs : List RecvInput) :
    ∀ d : Driver, (TCPThread d inputs).1.timeout = counterAfter d.timeout (TCPThread d inputs).2 := by
  induction inputs with
  | nil => intro d; simp [TCPThread, counterAfter]
  | cons i rest ih =>
    intro d
    cases hr : d.running_ with
    | false => rw [TCPThread_stopped d _ hr]; simp [counterAfter]
    | true =>
      rw [TCPThread_cons d i rest hr]
      simp only []
      rw [counterAfter_append, ← body_counterAfter, ← ih]

theorem run_count_shorts (inputs : List RecvInput) :
    ∀ d : Driver, d.running_ = true → reconnectAttempts (TCPThread d inputs).2 = 0 →
      (TCPThread d inputs).1.timeout = d.timeout + (inputs.countP RecvInput.isShort : Nat) := by
  induction inputs with
  | nil => intro d _ _; simp [TCPThread]
  | cons i rest ih =>
    intro d hr h
    rw [TCPThread_cons d i rest hr] at h ⊢
    rw [reconnectAttempts_append] at h
    have h1 : reconnectAttempts (TCPThread_body d i).2 = 0 := by omega
    have h2 : reconnectAttempts (TCPThread (TCPThread_body d i).1 rest).2 = 0 := by omega
    have hr2 : (TCPThread_body d i).1.running_ = true := by rw [body_running]; exact hr
    simp only []
    rw [ih _ hr2 h2, body_timeout, List.countP_cons]
    rw [body_attempts] at h1
    by_cases hs : i.isShort = true
    · by_cases ht : 10 < d.timeout
      · simp [hs, ht] at h1
      · simp [hs, ht]; omega
    · simp [hs]

/-- In terms of the trace: from a fresh session the counter is the number of
"Unexpected data size" reports since the last entry into `Connect()`. -/
theorem counter_matches_trace (d : Driver) (inputs : List RecvInput) (hfresh : d.fresh) :
    (TCPThread d inputs).1.timeout = (shortsSinceConnect (TCPThread d inputs).2 : Int) := by
  obtain ⟨_, ht⟩ := hfresh
  rw [run_counterAfter inputs d, ht]
  unfold counterAfter
  by_cases hc : Event.Connect ∈ (TCPThread d inputs).2
  · rw [if_pos hc]
  · rw [if_neg hc, shortsSinceConnect_of_not_mem _ hc]; simp

theorem counterAfterShorts_succ (n : Nat) :
    counterAfterShorts (n + 1)
      = if 10 < counterAfterShorts n then 1 else counterAfterShorts n + 1 := by
  unfold counterAfterShorts
  by_cases h0 : n = 0
  · subst h0; rfl
  · have h1 : n + 1 ≠ 0 := by omega
    simp only [h0, h1, if_false, Nat.add_sub_cancel]
    by_cases h : 10 < (n - 1) % 11 + 1
    · simp only [h, if_true]; omega
    · simp only [h, if_false]; omega

theorem reconnectsAfterShorts_succ (n : Nat) :
    reconnectsAfterShorts (n + 1)
      = reconnectsAfterShorts n + (if 10 < counterAfterShorts n then 1 else 0) := by
  unfold reconnectsAfterShorts counterAfterShorts
  by_cases h0 : n = 0
  · subst h0; rfl
  · simp only [h0, if_false, Nat.add_sub_cancel]
    by_cases h : 10 < (n - 1) % 11 + 1
    · simp only [h, if_true]; omega
    · simp only [h, if_false]; omega

theorem counterAfterShorts_balance (n : Nat) :
    counterAfterShorts n + 11 * reconnectsAfterShorts n = n := by
  unfold counterAfterShorts reconnectsAfterShorts
  by_cases h0 : n = 0
  · subst h0; rfl
  · simp only [h0, if_false]; omega

/-- The counter and the number of reconnects depend on the inputs only through
the number of short reads: from a state whose counter is what `n0` earlier short
reads lead to, `k` more short reads lead to what `n0 + k` short reads lead to. -/
theorem run_closed_form (inputs : List RecvInput) :
    ∀ (d : Driver) (n0 : Nat), d.running_ = true →
      d.timeout = (counterAfterShorts n0 : Int) →
      (TCPThread d inputs).1.timeout
          = (counterAfterShorts (n0 + inputs.countP RecvInput.isShort) : Int)
        ∧ reconnectAttempts (TCPThread d inputs).2 + reconnectsAfterShorts n0
          = reconnectsAfterShorts (n0 + inputs.countP RecvInput.isShort) := by
  induction inputs with
  | nil => intro d n0 _ ht; simpa [TCPThread, reconnectAttempts] using ht
  | cons i rest ih =>
    intro d n0 hr ht
    rw [TCPThread_cons d i rest hr, reconnectAttempts_append]
    have hr2 : (TCPThread_body d i).1.running_ = true := by rw [body_running]; exact hr
    have hbt := body_timeout d i
    have hba := body_attempts d i
    have h10 : (10 < d.timeout) ↔ 10 < counterAfterShorts n0 := by
      rw [ht]; exact_mod_cast Iff.rfl
    by_cases hs : i.isShort = true
    · have hcount : (i :: rest).countP RecvInput.isShort
          = rest.countP RecvInput.isShort + 1 := by
        simp [List.countP_cons, hs]
      have hnext : (TCPThread_body d i).1.timeout = (counterAfterShorts (n0 + 1) : Int) := by
        rw [hbt, counterAfterShorts_succ]
        by_cases h : 10 < counterAfterShorts n0
        · simp [hs, h10.mpr h, h]
        · have h' : ¬ 10 < d.timeout := fun hc => h (h10.mp hc)
          simp [hs, h', h, ht]
      have h := ih (TCPThread_body d i).1 (n0 + 1) hr2 hnext
      have hidx : n0 + (i :: rest).countP RecvInput.isShort
          = n0 + 1 + rest.countP RecvInput.isShort := by omega
      rw [hidx]
      refine ⟨h.1, ?_⟩
      have hstep := reconnectsAfterShorts_succ n0
      have hatt : reconnectAttempts (TCPThread_body d i).2
          = if 10 < counterAfterShorts n0 then 1 else 0 := by
        rw [hba]
        by_cases hc : 10 < counterAfterShorts n0
        · simp [hs, h10.mpr hc, hc]
        · have h' : ¬ 10 < d.timeout := fun hd => hc (h10.mp hd)
          simp [hs, h', hc]
      omega
    · have hcount : (i :: rest).countP RecvInput.isShort = rest.countP RecvInput.isShort := by
        simp [List.countP_cons, hs]
      have hnext : (TCPThread_body d i).1.timeout = (counterAfterShorts n0 : Int) := by
        rw [hbt]; simp [hs, ht]
      have hatt : reconnectAttempts (TCPThread_body d i).2 = 0 := by
        rw [hba]; simp [hs]
      have h := ih (TCPThread_body d i).1 n0 hr2 hnext
      rw [hcount, hatt]
      exact ⟨h.1, by omega⟩

/-- C9 (as amended): in every state the receiver loop reaches from a freshly
connected session, the counter is determined by the number `n` of short reads
received so far, whatever full reads and read errors came in between (a full
read does not reset it): it is `n` up to 11 and `(n - 1) mod 11 + 1` from then
on, the loop having reconnected `(n - 1) div 11` times, at the 12th, 23rd,
34th ... short read; so the counter is the number of short reads since the
last of those, that one included (`counter + 11 * reconnects = n`). The next
iteration reconnects exactly when it handles a short read after a multiple of
11 short reads. -/
theorem C9_counter_counts_since_connect (d : Driver) (inputs : List RecvInput)
    (hfresh : d.fresh) :
    (TCPThread d inputs).1.timeout
        = (counterAfterShorts (inputs.countP RecvInput.isShort) : Int)
      ∧ reconnectAttempts (TCPThread d inputs).2
        = reconnectsAfterShorts (inputs.countP RecvInput.isShort)
      ∧ (TCPThread d inputs).1.timeout + 11 * (reconnectAttempts (TCPThread d inputs).2 : Int)
        = (inputs.countP RecvInput.isShort : Int)
      ∧ (inputs.countP RecvInput.isShort ≤ 11 →
          (TCPThread d inputs).1.timeout = (inputs.countP RecvInput.isShort : Int)
            ∧ reconnectAttempts (TCPThread d inputs).2 = 0)
      ∧ (reconnectAttempts (TCPThread d inputs).2 = 0 →
          (TCPThread d inputs).1.timeout = (inputs.countP RecvInput.isShort : Nat))
      ∧ ∀ i : RecvInput,
          reconnectAttempts (TCPThread_body (TCPThread d inputs).1 i).2
            = if i.isShort = true ∧ 11 ≤ inputs.countP RecvInput.isShort
                ∧ inputs.countP RecvInput.isShort % 11 = 0 then 1 else 0 := by
  obtain ⟨hr, ht⟩ := hfresh
  have h := run_closed_form inputs d 0 hr (by rw [ht]; rfl)
  simp only [Nat.zero_add] at h
  obtain ⟨h1, h2⟩ := h
  have h2' : reconnectAttempts (TCPThread d inputs).2
      = reconnectsAfterShorts (inputs.countP RecvInput.isShort) := by
    have : reconnectsAfterShorts 0 = 0 := rfl
    omega
  have hbal := counterAfterShorts_balance (inputs.countP RecvInput.isShort)
  refine ⟨h1, h2', ?_, fun hle => ?_, fun h0 => ?_, fun i => ?_⟩
  · rw [h1, h2']; exact_mod_cast hbal
  · have hc : counterAfterShorts (inputs.countP RecvInput.isShort)
        = inputs.countP RecvInput.isShort := by
      unfold counterAfterShorts; split_ifs <;> omega
    have hz : reconnectsAfterShorts (inputs.countP RecvInput.isShort) = 0 := by
      unfold reconnectsAfterShorts; omega
    exact ⟨by rw [h1, hc], by rw [h2', hz]⟩
  · rw [h1]
    rw [h2'] at h0
    have : counterAfterShorts (inputs.countP RecvInput.isShort)
        = inputs.countP RecvInput.isShort := by omega
    rw [this]
  · rw [body_attempts, h1]
    have hiff : (10 < ((counterAfterShorts (inputs.countP RecvInput.isShort) : Nat) : Int))
        ↔ (11 ≤ inputs.countP RecvInput.isShort ∧ inputs.countP RecvInput.isShort % 11 = 0) := by
      have hnat : 10 < counterAfterShorts (inputs.countP RecvInput.isShort)
          ↔ (11 ≤ inputs.countP RecvInput.isShort
              ∧ inputs.countP RecvInput.isShort % 11 = 0) := by
        unfold counterAfterShorts; split_ifs <;> omega
      rw [← hnat]; exact_mod_cast Iff.rfl
    simp only [hiff]

/-- C9, witness: six short reads, a full read, six short reads after
activation: the twelfth short read reconnects and the counter ends at 1, which
is what twelve short reads lead to; after a short read and a full read the
counter is 1, the number of short reads. -/
theorem C9_counter_counts_since_connect_witness :
    (TCPThread activated interruptedShorts).1.timeout
        = (counterAfterShorts (interruptedShorts.countP RecvInput.isShort) : Int)
      ∧ (TCPThread activated [shortRead 8, fullRead countingFrame]).1.timeout
        = (([shortRead 8, fullRead countingFrame] : List RecvInput).countP
            RecvInput.isShort : Nat)
      ∧ (TCPThread activated [shortRead 8, fullRead countingFrame]).1.timeout
        = (([shortRead 8, fullRead countingFrame] : List RecvInput).countP
            RecvInput.isShort : Int) :=
  ⟨(C9_counter_counts_since_connect activated interruptedShorts (by decide)).1,
   (C9_counter_counts_since_connect activated [shortRead 8, fullRead countingFrame]
      (by decide)).2.2.2.2.1 (by decide),
   ((C9_counter_counts_since_connect activated [shortRead 8, fullRead countingFrame]
      (by decide)).2.2.2.1 (by decide)).1⟩

/-- C9 as stated fails: after a short read and then a full read (no reconnect)
the counter is 1 while no short read came after the most recent full read; and
twelve short reads with a full read in the middle, never more than six in a
row, trigger a reconnect. -/
theorem C9_counterexample :
    activated.fresh
      ∧ reconnectAttempts (TCPThread activated [shortRead 8, fullRead countingFrame]).2 = 0
      ∧ shortsSinceLastFull [shortRead 8, fullRead countingFrame] = 0
      ∧ (TCPThread activated [shortRead 8, fullRead countingFrame]).1.timeout = 1
      ∧ longestShortRun interruptedShorts = 6
      ∧ reconnectAttempts (TCPThread activated interruptedShorts).2 = 1 := by
  decide

/-! ## Connecting -/

/-- A successful `Activate` leaves a fresh session: the loop flag is set, the
counter is zero, and `quat` is as it was. -/
theorem Activate_success_fresh (d : Driver) (wsaInit : Int) (e : ConnectEnv)
    (h : (Activate d wsaInit e).val = EVRInitError.VRInitError_None) :
    (Activate d wsaInit e).state.fresh ∧ (Activate d wsaInit e).state.quat = d.quat := by
  unfold Activate Connect Driver.fresh at *
  cases hs : e.socket with
  | none => simp [hs] at h
  | some s =>
    cases hc : e.connectError with
    | true => simp [hs, hc] at h
    | false => simp [hs, hc]

/-! ## Activation -/

/-- C11: `Activate` returns `VRInitError_Driver_Failed` exactly when the initial
`Connect()` returns false, that is when socket creation fails or the transport
connect fails, and returns `VRInitError_None` otherwise; neither the result of
`WSAStartup` nor that of address parsing changes the return value. In the
failure case the receiver thread is not started; in the success case it is. -/
theorem C11_activate_fails_iff_connect_fails (d : Driver) (wsaInit : Int) (e : ConnectEnv) :
    ((Activate d wsaInit e).val = EVRInitError.VRInitError_Driver_Failed
        ↔ (Connect { d with running_ := true } e).val = false)
      ∧ ((Activate d wsaInit e).val = EVRInitError.VRInitError_Driver_Failed
        ↔ (e.socket = none ∨ e.connectError = true))
      ∧ ((Activate d wsaInit e).val = EVRInitError.VRInitError_None
        ↔ ¬ (e.socket = none ∨ e.connectError = true))
      ∧ (Activate d wsaInit e).val = (Activate d 0 { e with inet_pton := none }).val
      ∧ ((Activate d wsaInit e).val = EVRInitError.VRInitError_Driver_Failed
        → Event.threadStart ∉ (Activate d wsaInit e).events)
      ∧ ((Activate d wsaInit e).val = EVRInitError.VRInitError_None
        → Event.threadStart ∈ (Activate d wsaInit e).events) := by
  unfold Activate Connect
  cases hs : e.socket with
  | none => by_cases hw : wsaInit = 0 <;> simp [hw]
  | some s => cases hc : e.connectError <;> by_cases hw : wsaInit = 0 <;> simp [hw]

/-- C11, witness: activation with a socket that cannot be created fails and
starts no thread; activation with a working transport succeeds and starts it. -/
theorem C11_activate_fails_iff_connect_fails_witness :
    Event.threadStart ∉ (Activate (Driver.constructed none) 0
        { inet_pton := some 2130706433, socket := none, connectError := false }).events
      ∧ Event.threadStart ∈ (Activate (Driver.constructed none) 0
        { inet_pton := some 2130706433, socket := some 3, connectError := false }).events :=
  ⟨(C11_activate_fails_iff_connect_fails (Driver.constructed none) 0
      { inet_pton := some 2130706433, socket := none, connectError := false }).2.2.2.2.1
      (by decide),
   (C11_activate_fails_iff_connect_fails (Driver.constructed none) 0
      { inet_pton := some 2130706433, socket := some 3, connectError := false }).2.2.2.2.2
      (by decide)⟩

/-! ## Bounds on the malformed counter -/

theorem body_bounded (d : Driver) (i : RecvInput)
    (h : 0 ≤ d.timeout ∧ d.timeout ≤ 11) :
    0 ≤ (TCPThread_body d i).1.timeout ∧ (TCPThread_body d i).1.timeout ≤ 11 := by
  rw [body_timeout]
  by_cases hs : i.isShort = true
  · by_cases ht : 10 < d.timeout
    · simp [hs, ht]
    · simp only [hs, ht, if_true, if_false]; omega
  · simp only [hs, if_false]; exact h

theorem run_bounded (inputs : List RecvInput) :
    ∀ d : Driver, 0 ≤ d.timeout ∧ d.timeout ≤ 11 →
      0 ≤ (TCPThread d inputs).1.timeout ∧ (TCPThread d inputs).1.timeout ≤ 11 := by
  induction inputs with
  | nil => intro d h; simpa [TCPThread] using h
  | cons i rest ih =>
    intro d h
    cases hr : d.running_ with
    | false => rw [TCPThread_stopped d _ hr]; exact h
    | true =>
      rw [TCPThread_cons d i rest hr]
      exact ih _ (body_bounded d i h)

/-- C13: in every state the receiver loop reaches from the state left by the
initial `Connect()`, whatever the receive outcomes and the outcomes of the
reconnects in between, the counter lies between 0 and 11; and an iteration that
performs a reconnect attempt (a short read with the counter above 10) leaves
the counter at exactly 1, whatever the outcome of that reconnect. -/
theorem C13_counter_bounded (d0 : Driver) (e : ConnectEnv) (inputs : List RecvInput)
    (d : Driver) (i : RecvInput) :
    (0 ≤ (TCPThread (Connect d0 e).state inputs).1.timeout
        ∧ (TCPThread (Connect d0 e).state inputs).1.timeout ≤ 11)
      ∧ (0 ≤ (TCPThread (Activate d0 0 e).state inputs).1.timeout
        ∧ (TCPThread (Activate d0 0 e).state inputs).1.timeout ≤ 11)
      ∧ (reconnectAttempts (TCPThread_body d i).2 ≠ 0 →
          (TCPThread_body d i).1.timeout = 1
            ∧ ∀ env : ConnectEnv,
                (TCPThread_body d { i with env := env }).1.timeout = 1
                  ∧ reconnectAttempts (TCPThread_body d { i with env := env }).2 = 1) := by
  have hc : (Connect d0 e).state.timeout = 0 := Connect_timeout d0 e
  have ha : (Activate d0 0 e).state.timeout = 0 := by
    unfold Activate
    by_cases hv : (Connect { d0 with running_ := true } e).val = false
    · simp only [hv, if_true]; exact Connect_timeout _ e
    · simp only [hv, if_false]; exact Connect_timeout _ e
  refine ⟨run_bounded inputs _ (by rw [hc]; decide), run_bounded inputs _ (by rw [ha]; decide),
    fun h => ?_⟩
  rw [body_attempts] at h
  have hcond : i.isShort = true ∧ 10 < d.timeout := by
    by_contra hn
    simp [hn] at h
  refine ⟨?_, fun env => ?_⟩
  · rw [body_timeout]; simp [hcond.1, hcond.2]
  · have hs : ({ i with env := env } : RecvInput).isShort = true := hcond.1
    rw [body_timeout, body_attempts]
    simp [hs, hcond.2]

/-- C13, witness: a short read at counter 11 reconnects and leaves the counter
at 1, also when the reconnect finds no socket. -/
theorem C13_counter_bounded_witness :
    (TCPThread_body (activatedAt 11) (shortRead 8)).1.timeout = 1
      ∧ (TCPThread_body (activatedAt 11)
            { shortRead 8 with
              env := { inet_pton := none, socket := none, connectError := true } }).1.timeout
          = 1 :=
  ⟨((C13_counter_bounded (Driver.constructed none) unparsableHostEnv [] (activatedAt 11)
      (shortRead 8)).2.2 (by decide)).1,
   (((C13_counter_bounded (Driver.constructed none) unparsableHostEnv [] (activatedAt 11)
      (shortRead 8)).2.2 (by decide)).2
      { inet_pton := none, socket := none, connectError := true }).1⟩

/-! ## The handoff under `quatMutex` -/

theorem memcpy_zero (dst src : Mem16) : memcpy dst src 0 = dst := by
  funext i
  simp [memcpy]

theorem memcpy_succ (dst src : Mem16) (k : Nat) :
    (fun i : Fin 16 => if i.val = k then src i else memcpy dst src k i)
      = memcpy dst src (k + 1) := by
  funext i
  unfold memcpy
  by_cases h1 : i.val = k
  · simp [h1]
  · by_cases h2 : i.val < k
    · have h3 : i.val < k + 1 := by omega
      simp [h1, h2, h3]
    · have h3 : ¬ i.val < k + 1 := by omega
      simp [h1, h2, h3]

theorem stepReceiver_buffer (s : Sys) : (stepReceiver s).buffer = s.buffer := by
  unfold stepReceiver
  cases s.wpc with
  | start => cases s.quatMutex <;> rfl
  | copying k => by_cases h : k < BUFFER_SIZE <;> simp [h]
  | finished => rfl

theorem stepPoller_buffer (s : Sys) : (stepPoller s).buffer = s.buffer := by
  unfold stepPoller
  cases s.rpc with
  | start => cases s.quatMutex <;> rfl
  | _ => rfl

theorem inv_init (old new : Mem16) : Sys.inv old (Sys.init old new) := by
  simp [Sys.inv, Sys.init]

theorem inv_stepReceiver (old : Mem16) (s : Sys) (h : Sys.inv old s) :
    Sys.inv old (stepReceiver s) := by
  obtain ⟨quat, m, buf, wpc, rpc, rot⟩ := s
  cases wpc with
  | start =>
    cases m with
    | some t => exact h
    | none =>
      simp only [Sys.inv, stepReceiver] at h ⊢
      obtain ⟨hw, hr⟩ := h
      refine ⟨⟨Nat.zero_le _, trivial, by rw [memcpy_zero]; exact hw.1⟩, ?_⟩
      cases rpc <;> simp_all
  | copying k =>
    simp only [Sys.inv] at h
    obtain ⟨⟨hk, hm, hq⟩, hr⟩ := h
    subst hm
    by_cases hlt : k < BUFFER_SIZE
    · simp only [Sys.inv, stepReceiver, hlt, if_true]
      refine ⟨⟨hlt, trivial, by rw [hq]; exact memcpy_succ old buf k⟩, ?_⟩
      cases rpc <;> simp_all
    · simp only [Sys.inv, stepReceiver, hlt, if_false]
      have hk16 : k = BUFFER_SIZE := Nat.le_antisymm hk (Nat.le_of_not_lt hlt)
      refine ⟨⟨by rw [hq, hk16, memcpy_full], by simp⟩, ?_⟩
      cases rpc <;> simp_all
  | finished => exact h

theorem inv_stepPoller (old : Mem16) (s : Sys) (h : Sys.inv old s) :
    Sys.inv old (stepPoller s) := by
  obtain ⟨quat, m, buf, wpc, rpc, rot⟩ := s
  cases rpc with
  | start =>
    cases m with
    | some t => exact h
    | none =>
      simp only [Sys.inv, stepPoller] at h ⊢
      refine ⟨?_, trivial⟩
      cases wpc <;> simp_all
  | readX =>
    simp only [Sys.inv, stepPoller] at h ⊢
    exact ⟨h.1, h.2, trivial⟩
  | readY =>
    simp only [Sys.inv, stepPoller] at h ⊢
    exact ⟨h.1, h.2.1, h.2.2, trivial⟩
  | readZ =>
    simp only [Sys.inv, stepPoller] at h ⊢
    exact ⟨h.1, h.2.1, h.2.2.1, h.2.2.2, trivial⟩
  | readW =>
    simp only [Sys.inv, stepPoller] at h ⊢
    refine ⟨h.1, h.2.1, ?_⟩
    rw [decode_components]
    simp only [HmdQuaternion.mk.injEq]
    exact ⟨trivial, h.2.2.1, h.2.2.2.1, h.2.2.2.2⟩
  | unlock =>
    simp only [Sys.inv, stepPoller] at h ⊢
    obtain ⟨hw, hm, hq⟩ := h
    subst hm
    cases wpc with
    | start => exact ⟨⟨hw.1, by simp⟩, by simp, Or.inl (by rw [hq, hw.1])⟩
    | copying k => simp at hw
    | finished => exact ⟨⟨hw.1, by simp⟩, by simp, Or.inr (by rw [hq, hw.1])⟩
  | finished => exact h

theorem inv_step (old : Mem16) (s : Sys) (t : Thread) (h : Sys.inv old s) :
    Sys.inv old (s.step t) := by
  cases t with
  | receiver => exact inv_stepReceiver old s h
  | poller => exact inv_stepPoller old s h

theorem step_buffer (s : Sys) (t : Thread) : (s.step t).buffer = s.buffer := by
  cases t with
  | receiver => exact stepReceiver_buffer s
  | poller => exact stepPoller_buffer s

theorem inv_run (old : Mem16) (schedule : List Thread) :
    ∀ s : Sys, Sys.inv old s →
      Sys.inv old (s.run schedule) ∧ (s.run schedule).buffer = s.buffer := by
  induction schedule with
  | nil => intro s h; exact ⟨h, rfl⟩
  | cons t rest ih =>
    intro s h
    have h2 := ih (s.step t) (inv_step old s t h)
    exact ⟨h2.1, by rw [← step_buffer s t]; exact h2.2⟩

theorem run_append (s : Sys) (a b : List Thread) : s.run (a ++ b) = (s.run a).run b := by
  simp [Sys.run, List.foldl_append]

theorem stepReceiver_rpc (s : Sys) : (stepReceiver s).rpc = s.rpc := by
  unfold stepReceiver
  cases s.wpc with
  | start => cases s.quatMutex <;> rfl
  | copying k => by_cases h : k < BUFFER_SIZE <;> simp [h]
  | finished => rfl

theorem run_receiver_rpc (n : Nat) :
    ∀ s : Sys, (s.run (List.replicate n .receiver)).rpc = s.rpc := by
  induction n with
  | zero => intro s; rfl
  | succ n ih =>
    intro s
    have h := ih (stepReceiver s)
    rw [stepReceiver_rpc] at h
    exact h

/-- A receiver that holds the mutex with `k` bytes copied has left its block
after `17 - k` moves of its own. -/
theorem receiver_drains (n : Nat) :
    ∀ (k : Nat) (s : Sys), s.wpc = .copying k → k ≤ BUFFER_SIZE → 17 ≤ k + n →
      (s.run (List.replicate n .receiver)).quatMutex = none := by
  induction n with
  | zero => intro k s _ hk hn; unfold BUFFER_SIZE at hk; omega
  | succ n ih =>
    intro k s hw hk hn
    obtain ⟨quat, m, buf, wpc, rpc, rot⟩ := s
    simp only at hw
    subst hw
    by_cases hlt : k < BUFFER_SIZE
    · have hstep : Sys.step ⟨quat, m, buf, .copying k, rpc, rot⟩ .receiver
          = ⟨fun i => if i.val = k then buf i else quat i, m, buf, .copying (k + 1), rpc, rot⟩ := by
        simp [Sys.step, stepReceiver, hlt]
      show (Sys.run (Sys.step _ .receiver) (List.replicate n .receiver)).quatMutex = none
      rw [hstep]
      exact ih (k + 1) _ rfl hlt (by omega)
    · have hstep : Sys.step ⟨quat, m, buf, .copying k, rpc, rot⟩ .receiver
          = ⟨quat, none, buf, .finished, rpc, rot⟩ := by
        simp [Sys.step, stepReceiver, hlt]
      show (Sys.run (Sys.step _ .receiver) (List.replicate n .receiver)).quatMutex = none
      rw [hstep]
      clear hstep hn ih
      induction n with
      | zero => rfl
      | succ n ih2 => exact ih2

theorem run_receiver_fixed (n : Nat) (s : Sys) (h : stepReceiver s = s) :
    s.run (List.replicate n .receiver) = s := by
  induction n with
  | zero => rfl
  | succ n ih =>
    show Sys.run (Sys.step s .receiver) (List.replicate n .receiver) = s
    have hs : Sys.step s .receiver = s := h
    rw [hs]
    exact ih

/-- After eighteen moves of the receiver, the receiver does not hold the mutex. -/
theorem receiver_releases (old : Mem16) (s : Sys) (h : Sys.inv old s) :
    (s.run (List.replicate 18 .receiver)).quatMutex ≠ some .receiver := by
  obtain ⟨quat, m, buf, wpc, rpc, rot⟩ := s
  cases wpc with
  | start =>
    have hne : m ≠ some Thread.receiver := h.1.2
    cases m with
    | none =>
      have hstep : Sys.step ⟨quat, none, buf, .start, rpc, rot⟩ .receiver
          = ⟨quat, some .receiver, buf, .copying 0, rpc, rot⟩ := rfl
      have hrun : Sys.run ⟨quat, none, buf, .start, rpc, rot⟩ (List.replicate 18 .receiver)
          = Sys.run (Sys.step ⟨quat, none, buf, .start, rpc, rot⟩ .receiver)
              (List.replicate 17 .receiver) := rfl
      rw [hrun, hstep, receiver_drains 17 0 _ rfl (Nat.zero_le _) (by omega)]
      simp
    | some t =>
      rw [run_receiver_fixed 18 _ rfl]
      exact hne
  | copying k =>
    have hk : k ≤ BUFFER_SIZE := h.1.1
    rw [receiver_drains 18 k _ rfl hk (by omega)]
    simp
  | finished =>
    rw [run_receiver_fixed 18 _ rfl]
    exact h.1.2

/-- A poller that is not kept out by the receiver completes its read within six
moves of its own. -/
theorem poller_completes (old : Mem16) (s : Sys) (h : Sys.inv old s)
    (hm : s.quatMutex ≠ some .receiver) :
    (s.run (List.replicate 6 .poller)).rpc = .finished := by
  obtain ⟨quat, m, buf, wpc, rpc, rot⟩ := s
  cases rpc with
  | start =>
    cases m with
    | none => rfl
    | some t =>
      cases t with
      | receiver => exact absurd rfl hm
      | poller => exact absurd rfl h.2
  | _ => rfl

/-- No schedule can leave the read stuck: from every reachable state, letting
the receiver and then the poller run completes the read. -/
theorem read_completes (old new : Mem16) (schedule : List Thread) :
    ((Sys.init old new).run
        (schedule ++ (List.replicate 18 .receiver ++ List.replicate 6 .poller))).rpc
      = .finished := by
  rw [run_append, run_append]
  have h1 := (inv_run old schedule (Sys.init old new) (inv_init old new)).1
  have h2 := (inv_run old (List.replicate 18 .receiver) _ h1).1
  exact poller_completes old _ h2 (receiver_releases old _ h1)

theorem full_read_pose (d : Driver) (b : Mem16) (env : ConnectEnv) :
    (GetPose (TCPThread_body d
        { received := .received 16, buffer := b, env := env }).1).qRotation = decode b := by
  have h16 : ((16 : Fin 17).val = BUFFER_SIZE) = True := eq_true rfl
  simp only [TCPThread_body, h16, if_true, GetPose, memcpy_full, decode]


/-- Left alone, the poller reads the whole of `old`. -/
theorem poller_alone (old new : Mem16) :
    ((Sys.init old new).run (List.replicate 6 .poller)).rpc = .finished
      ∧ ((Sys.init old new).run (List.replicate 6 .poller)).qRotation = decode old := by
  refine ⟨rfl, ?_⟩
  rw [decode_components]
  rfl

/-- When the receiver goes first, `quat` becomes `new` and the poller reads the
whole of `new`. -/
theorem receiver_then_poller (old new : Mem16) :
    ((Sys.init old new).run
        (List.replicate 18 .receiver ++ List.replicate 6 .poller)).rpc = .finished
      ∧ ((Sys.init old new).run
        (List.replicate 18 .receiver ++ List.replicate 6 .poller)).qRotation = decode new := by
  have hinv := inv_run old (List.replicate 18 .receiver) (Sys.init old new) (inv_init old new)
  have hw : ((Sys.init old new).run (List.replicate 18 .receiver)).wpc = .finished := rfl
  have hr : ((Sys.init old new).run (List.replicate 18 .receiver)).rpc = .start := rfl
  have hm : ((Sys.init old new).run (List.replicate 18 .receiver)).quatMutex = none := rfl
  have hrot : ((Sys.init old new).run (List.replicate 18 .receiver)).qRotation
      = { w := 0, x := 0, y := 0, z := 0 } := rfl
  have hq : ((Sys.init old new).run (List.replicate 18 .receiver)).quat = new := by
    have h1 := hinv.1.1
    rw [hw] at h1
    rw [h1.1, hinv.2]
    rfl
  rw [run_append]
  generalize (Sys.init old new).run (List.replicate 18 .receiver) = s at hw hr hm hrot hq
  obtain ⟨quat, m, buf, wpc, rpc, rot⟩ := s
  simp only at hw hr hm hrot hq
  subst hw hr hm hrot hq
  refine ⟨rfl, ?_⟩
  rw [decode_components]
  rfl

theorem inv_consequences (old : Mem16) (s : Sys) (h : Sys.inv old s) :
    (s.rpc = .finished → s.qRotation = decode old ∨ s.qRotation = decode s.buffer)
      ∧ (∀ k, s.wpc = .copying k → s.rpc = .start ∨ s.rpc = .finished)
      ∧ (s.wpc = .finished → s.quat = s.buffer) := by
  obtain ⟨quat, m, buf, wpc, rpc, rot⟩ := s
  obtain ⟨hw, hr⟩ := h
  refine ⟨fun hfin => ?_, fun k hk => ?_, fun hfin => ?_⟩
  · simp only at hfin
    subst hfin
    exact hr.2
  · simp only at hk
    subst hk
    simp only at hw
    cases rpc <;> simp_all
  · simp only at hfin
    subst hfin
    exact hw.1

/-- C12: for every schedule of the atomic actions of the receiver's locked
`memcpy` of a full frame and of the poller's locked read in `GetPose`, a read
that has completed holds either the whole quaternion from before the write
(what `GetPose` returns on the state before) or the whole new one (what it
returns on the state after the full read), never parts of both; the two
threads are never inside their blocks together; once the receiver has left its
block `quat` is the whole new frame; whatever the schedule did so far the read
can still complete; and each of the two outcomes occurs under some schedule. -/
theorem C12_atomic_handoff (d : Driver) (new : Mem16) (env : ConnectEnv)
    (schedule : List Thread) :
    (((Sys.init d.quat new).run schedule).rpc = .finished →
        ((Sys.init d.quat new).run schedule).qRotation = (GetPose d).qRotation
          ∨ ((Sys.init d.quat new).run schedule).qRotation
              = (GetPose (TCPThread_body d
                  { received := .received 16, buffer := new, env := env }).1).qRotation)
      ∧ (∀ k, ((Sys.init d.quat new).run schedule).wpc = .copying k →
          ((Sys.init d.quat new).run schedule).rpc = .start
            ∨ ((Sys.init d.quat new).run schedule).rpc = .finished)
      ∧ (((Sys.init d.quat new).run schedule).wpc = .finished →
          ((Sys.init d.quat new).run schedule).quat = memcpy d.quat new BUFFER_SIZE)
      ∧ ((Sys.init d.quat new).run
            (schedule ++ (List.replicate 18 .receiver ++ List.replicate 6 .poller))).rpc
          = .finished
      ∧ (∃ sched : List Thread, ((Sys.init d.quat new).run sched).rpc = .finished
          ∧ ((Sys.init d.quat new).run sched).qRotation = decode d.quat)
      ∧ (∃ sched : List Thread, ((Sys.init d.quat new).run sched).rpc = .finished
          ∧ ((Sys.init d.quat new).run sched).qRotation = decode new) := by
  have hinv := inv_run d.quat schedule (Sys.init d.quat new) (inv_init d.quat new)
  have hbuf : ((Sys.init d.quat new).run schedule).buffer = new := hinv.2
  have hold : (GetPose d).qRotation = decode d.quat := by rw [decode_components]; rfl
  have hnew := full_read_pose d new env
  have hc := inv_consequences d.quat _ hinv.1
  rw [hbuf] at hc
  rw [hold, hnew, memcpy_full]
  exact ⟨hc.1, hc.2.1, hc.2.2, read_completes d.quat new schedule,
    ⟨_, poller_alone d.quat new⟩, ⟨_, receiver_then_poller d.quat new⟩⟩

/-- C12, witness: the poller asks for the mutex while the receiver has copied
two bytes, waits, and then reads the whole new frame. -/
theorem C12_atomic_handoff_witness :
    ((Sys.init activated.quat countingFrame).run contendedSchedule).qRotation
        = (GetPose activated).qRotation
      ∨ ((Sys.init activated.quat countingFrame).run contendedSchedule).qRotation
        = (GetPose (TCPThread_body activated
            { received := .received 16, buffer := countingFrame,
              env := unparsableHostEnv }).1).qRotation :=
  (C12_atomic_handoff activated countingFrame unparsableHostEnv contendedSchedule).1
    (by decide)

end Optiforge
